import Mathlib

/-!
Verification of the GO_DUNG backend core: the run-progression state machine
(`Service.Attempt` in `app/services/run`), the marketplace buy settlement
(`Service.Buy` in `app/services/auction`), and the geofence evaluator
(`geo.HaversineMeters`).

The Go services are shallowly embedded as pure functions over an explicit
`GameState` holding the MongoDB collections they touch.  Each repository
method (FindOne, FindOneAndUpdate, FindOneAndReplace, InsertOne with a
unique index, upsert) is modelled on lists with first-match semantics.
A `mongodb.WithTransaction` body is modelled all-or-nothing: on success the
returned state carries every write, on error the caller keeps the pre-call
state (the driver aborts the transaction, rolling back partial writes).

Conventions:
- Go `string` ids and keys are `String`; `int`/`int64` are `Int`.
- `time.Time` values are abstract ticks (`Nat`); the service clock `now`
  is a parameter (the Go services capture `s.now()`).
- Latitudes, longitudes, radii and distances carried through the service
  are `ℚ` so that the service is executable; the service's geofence
  evaluator (`geo.HaversineMeters` in Go) is passed as the function
  parameter `hav`.  The evaluator itself is verified separately over `ℝ`.
- `functions.NewUUID()` results are passed in as explicit fresh-id
  parameters.
- Unused request fields that the validator merely bounds
  (`DeviceTime`, `GPSAccuracyM`, the `Proof` response field) are omitted.
-/

namespace Dungeons

/-- The error taxonomy of `app/errors` (errors.go): each `Err...` variable
becomes one constructor; services wrap these with `fmt.Errorf("...: %w", e)`
so the wrapped sentinel is the observable error. -/
inductive AppError where
  | validation
  | notFound
  | conflict
  | forbidden
  | unauthorized
  | insufficient
  | wrongStepOrder
  | notInRange
  | alreadyHandled
  | invalidArgument
  deriving DecidableEq, Repr

instance {e a : Type} [DecidableEq e] [DecidableEq a] : DecidableEq (Except e a) :=
  fun x y =>
    match x, y with
    | .ok u, .ok v =>
      if h : u = v then isTrue (by rw [h]) else isFalse (fun hc => h (Except.ok.inj hc))
    | .ok _, .error _ => isFalse (fun hc => Except.noConfusion hc)
    | .error _, .ok _ => isFalse (fun hc => Except.noConfusion hc)
    | .error u, .error v =>
      if h : u = v then isTrue (by rw [h]) else isFalse (fun hc => h (Except.error.inj hc))

/-- `models.RunState`: `active`, `completed`, `abandoned`. -/
inductive RunState where
  | active
  | completed
  | abandoned
  deriving DecidableEq, Repr

/-- `models.KilledStep`. -/
structure KilledStep where
  bossStepId : String
  killedAt : Nat
  attemptId : String
  deriving DecidableEq, Repr

/-- `models.Run` (fields used by the run service). -/
structure Run where
  id : String
  dungeonId : String
  playerId : String
  state : RunState
  currentStep : Int
  killedSteps : List KilledStep
  startedAt : Nat
  endedAt : Option Nat
  updatedAt : Nat
  deriving DecidableEq, Repr

/-- `models.BossLocation`. -/
structure BossLocation where
  lat : ℚ
  lon : ℚ
  radiusMeters : ℚ
  deriving DecidableEq, Repr

/-- `models.RewardItem`. -/
structure RewardItem where
  itemId : String
  qty : Int
  deriving DecidableEq, Repr

/-- `models.Rewards`. -/
structure Rewards where
  gold : Int
  items : List RewardItem
  deriving DecidableEq, Repr

/-- `models.BossStep` (fields used by the run service). -/
structure BossStep where
  id : String
  dungeonId : String
  order : Int
  location : BossLocation
  rewards : Rewards
  deriving DecidableEq, Repr

/-- `models.Player` (fields used by the economy operations). -/
structure Player where
  id : String
  gold : Int
  updatedAt : Nat
  deriving DecidableEq, Repr

/-- `models.AttemptRequest`: `Lat`/`Lon` are pointers (`Option`),
`IdempotencyKey` a string validated to length 8..128. -/
structure AttemptRequest where
  lat : Option ℚ
  lon : Option ℚ
  idempotencyKey : String
  deriving DecidableEq, Repr

/-- `models.AttemptResponse` (the `Proof` field, always absent here, is
omitted). -/
structure AttemptResponse where
  runId : String
  stepId : String
  distanceM : ℚ
  rewards : Rewards
  run : Run
  player : Player
  idempotency : Bool
  deriving DecidableEq, Repr

/-- `models.AttemptRecord`: the idempotency record; `Response` is `any` in
Go, null until settlement, then the stored `AttemptResponse`. -/
structure AttemptRecord where
  id : String
  runId : String
  stepId : String
  playerId : String
  idempotencyKey : String
  rewardApplied : Bool
  response : Option AttemptResponse
  createdAt : Nat
  deriving DecidableEq, Repr

/-- `models.ListingStatus`. -/
inductive ListingStatus where
  | active
  | sold
  | cancelled
  | expired
  deriving DecidableEq, Repr

/-- `models.Listing`; `BuyerID` has Go zero value `""` until recorded. -/
structure Listing where
  id : String
  sellerId : String
  buyerId : String
  itemId : String
  qty : Int
  pricePerUnit : Int
  status : ListingStatus
  createdAt : Nat
  expiresAt : Option Nat
  deriving DecidableEq, Repr

/-- `models.Trade`: immutable settlement receipt. -/
structure Trade where
  id : String
  buyerId : String
  sellerId : String
  listingId : String
  itemId : String
  qty : Int
  totalPrice : Int
  createdAt : Nat
  deriving DecidableEq, Repr

/-- `models.InventoryEntry`: one `(player, item) → qty` row; `_id` is
`playerId + ":" + itemId` on upsert-insert. -/
structure InventoryEntry where
  id : String
  playerId : String
  itemId : String
  qty : Int
  updatedAt : Nat
  deriving DecidableEq, Repr

/-- `models.BuyListingRequest`. -/
structure BuyListingRequest where
  qty : Int
  deriving DecidableEq, Repr

/-- The datastore: one list per MongoDB collection touched by the two
services (`runs`, `boss_steps`, `players`, `inventory`, `attempts`,
`auction_listings`, `auction_trades`). -/
structure GameState where
  runs : List Run
  steps : List BossStep
  players : List Player
  inventory : List InventoryEntry
  attempts : List AttemptRecord
  listings : List Listing
  trades : List Trade
  deriving DecidableEq, Repr

/-- Mongo `FindOneAndUpdate`/`FindOneAndReplace` with `ReturnDocument(After)`
on a list: rewrite the first element matching `p` with `f`, returning the
post-update document and the new list, or `none` (`ErrNoDocuments`). -/
def findOneAndUpdate (p : α → Bool) (f : α → α) : List α → Option (α × List α)
  | [] => none
  | x :: xs =>
    if p x then some (f x, f x :: xs)
    else (findOneAndUpdate p f xs).map (fun r => (r.1, x :: r.2))

/-- `runRepo.GetRunByID`: `FindOne {_id: id}`. -/
def getRunByID (st : GameState) (id : String) : Option Run :=
  st.runs.find? (fun r => r.id == id)

/-- `dungeonRepo.GetStep`: `FindOne {_id: stepID, dungeonId: dungeonID}`. -/
def getStep (st : GameState) (dungeonID stepID : String) : Option BossStep :=
  st.steps.find? (fun s => s.id == stepID && s.dungeonId == dungeonID)

/-- `dungeonRepo.ListStepsByDungeon`: `Find {dungeonId}` (sorted by order;
the run service only takes the length). -/
def listStepsByDungeon (st : GameState) (dungeonID : String) : List BossStep :=
  st.steps.filter (fun s => s.dungeonId == dungeonID)

/-- `playerRepo.GetByID`: `FindOne {customID: id}`. -/
def getPlayerByID (st : GameState) (id : String) : Option Player :=
  st.players.find? (fun p => p.id == id)

/-- `playerRepo.IncrementGold`: `FindOneAndUpdate {customID: id}
{$inc: {gold: delta}, $set: {updated_at}}`, returning the updated player;
`ErrNotFound` when absent. -/
def incrementGold (st : GameState) (id : String) (delta : Int) (updatedAt : Nat) :
    Except AppError (Player × GameState) :=
  match findOneAndUpdate (fun p => p.id == id)
      (fun p => { p with gold := p.gold + delta, updatedAt := updatedAt }) st.players with
  | none => .error .notFound
  | some (p, ps) => .ok (p, { st with players := ps })

/-- `playerRepo.SetGold`: `FindOneAndUpdate {customID: id}
{$set: {gold, updated_at}}`. -/
def setGold (st : GameState) (id : String) (gold : Int) (updatedAt : Nat) :
    Except AppError (Player × GameState) :=
  match findOneAndUpdate (fun p => p.id == id)
      (fun p => { p with gold := gold, updatedAt := updatedAt }) st.players with
  | none => .error .notFound
  | some (p, ps) => .ok (p, { st with players := ps })

/-- `inventoryRepo.AddItem`: rejects `qty <= 0` with `ErrValidation`, else
upserts `{playerId, itemId}` with `$inc {qty}` (insert id
`playerId + ":" + itemId`). -/
def addItem (st : GameState) (playerID itemID : String) (qty : Int) (updatedAt : Nat) :
    Except AppError GameState :=
  if qty ≤ 0 then .error .validation
  else
    match findOneAndUpdate (fun e => e.playerId == playerID && e.itemId == itemID)
        (fun e => { e with qty := e.qty + qty, updatedAt := updatedAt }) st.inventory with
    | some (_, inv) => .ok { st with inventory := inv }
    | none =>
        .ok { st with inventory := st.inventory ++
          [{ id := playerID ++ ":" ++ itemID, playerId := playerID, itemId := itemID,
             qty := qty, updatedAt := updatedAt }] }

/-- `runRepo.GetAttemptRecord`: `FindOne {runId, stepId}`; `ErrNotFound`
when missing. -/
def getAttemptRecord (st : GameState) (runID stepID : String) : Option AttemptRecord :=
  st.attempts.find? (fun r => r.runId == runID && r.stepId == stepID)

/-- `runRepo.CreateAttemptRecord`: `InsertOne`; a violation of the unique
indexes (`_id`, or `(runId, stepId)`) is a duplicate-key error surfaced as
`ErrAlreadyHandled`. -/
def createAttemptRecord (st : GameState) (record : AttemptRecord) :
    Except AppError GameState :=
  if st.attempts.any (fun r =>
      (r.runId == record.runId && r.stepId == record.stepId) || r.id == record.id) then
    .error .alreadyHandled
  else .ok { st with attempts := st.attempts ++ [record] }

/-- `runRepo.UpdateAttemptRecord`: `UpdateOne {_id: id}
{$set: {response, rewardApplied}}`; `ErrNotFound` when no document matched. -/
def updateAttemptRecord (st : GameState) (id : String)
    (response : Option AttemptResponse) (rewardApplied : Bool) :
    Except AppError GameState :=
  match findOneAndUpdate (fun r => r.id == id)
      (fun r => { r with response := response, rewardApplied := rewardApplied })
      st.attempts with
  | none => .error .notFound
  | some (_, recs) => .ok { st with attempts := recs }

/-- `runRepo.ReplaceRun`: `FindOneAndReplace {_id: run.ID}` returning the
post-replace document; `ErrNotFound` when absent. -/
def replaceRun (st : GameState) (run : Run) : Except AppError (Run × GameState) :=
  match findOneAndUpdate (fun r => r.id == run.id) (fun _ => run) st.runs with
  | none => .error .notFound
  | some (r, rs) => .ok (r, { st with runs := rs })

/-- `auctionRepo.GetByID`: `FindOne {_id: id}`. -/
def auctionGetByID (st : GameState) (id : String) : Option Listing :=
  st.listings.find? (fun l => l.id == id)

/-- `auctionRepo.ReplaceListing`: `FindOneAndReplace {_id: listing.ID}`
returning the post-replace document; `ErrNotFound` when absent. -/
def replaceListing (st : GameState) (listing : Listing) :
    Except AppError (Listing × GameState) :=
  match findOneAndUpdate (fun l => l.id == listing.id) (fun _ => listing) st.listings with
  | none => .error .notFound
  | some (l, ls) => .ok (l, { st with listings := ls })

/-- `auctionRepo.InsertTrade`: `InsertOne` into `auction_trades`; the only
unique index is `_id`, so a colliding trade id is a (generic) insert error. -/
def insertTrade (st : GameState) (trade : Trade) : Except AppError GameState :=
  if st.trades.any (fun t => t.id == trade.id) then .error .conflict
  else .ok { st with trades := st.trades ++ [trade] }

/-- `validate.Struct` on `models.AttemptRequest`: `Lat`/`Lon` are
`required` pointers, `IdempotencyKey` is `required,min=8,max=128`. -/
def AttemptRequest.validate (req : AttemptRequest) : Bool :=
  req.lat.isSome && req.lon.isSome &&
    8 ≤ req.idempotencyKey.length && req.idempotencyKey.length ≤ 128

/-- `validate.Struct` on `models.BuyListingRequest`: `Qty` is
`required,min=1`. -/
def BuyListingRequest.validate (req : BuyListingRequest) : Bool :=
  1 ≤ req.qty

/-- The Go zero value an `AttemptResponse` decodes to from a `null` stored
payload (`json.Unmarshal` of `null` is a no-op on the zero struct).  The Go
zero of the `RunState` string is `""`, outside the enum; `.active` stands
in and no theorem depends on this value. -/
def zeroAttemptResponse : AttemptResponse :=
  { runId := "", stepId := "", distanceM := 0,
    rewards := { gold := 0, items := [] },
    run := { id := "", dungeonId := "", playerId := "", state := .active,
             currentStep := 0, killedSteps := [], startedAt := 0,
             endedAt := none, updatedAt := 0 },
    player := { id := "", gold := 0, updatedAt := 0 },
    idempotency := false }

/-- `decodeAttemptResponse` (service.go): JSON round-trip of the stored
payload.  A well-typed stored response decodes to itself; a `null` payload
decodes without error to the zero value. -/
def decodeAttemptResponse (raw : Option AttemptResponse) : AttemptResponse :=
  raw.getD zeroAttemptResponse

/-- The replay block of `Service.Attempt` (service.go lines 270-282), run
when `GetAttemptRecord` finds an existing record: a non-empty stored key
differing from the request's key fails `ErrAlreadyHandled`; an unapplied
reward fails `ErrAlreadyHandled`; otherwise the stored response is decoded
and returned with `Idempotency = true`. -/
def attemptReplayCheck (existing : AttemptRecord) (reqKey : String) :
    Except AppError AttemptResponse :=
  if existing.idempotencyKey ≠ "" && existing.idempotencyKey ≠ reqKey then
    .error .alreadyHandled
  else if !existing.rewardApplied then
    .error .alreadyHandled
  else
    .ok { decodeAttemptResponse existing.response with idempotency := true }

/-- The duplicate-key recovery block of `Service.Attempt` (service.go lines
348-362), run after the transaction fails with `ErrAlreadyHandled`: the
record is read back; a non-empty stored key differing from the request's
key fails `ErrAlreadyHandled`; otherwise the stored response is decoded and
returned with `Idempotency = true` (no reward-applied check here). -/
def attemptDuplicateRecovery (record : AttemptRecord) (reqKey : String) :
    Except AppError AttemptResponse :=
  if record.idempotencyKey ≠ "" && record.idempotencyKey ≠ reqKey then
    .error .alreadyHandled
  else
    .ok { decodeAttemptResponse record.response with idempotency := true }

/-- `inventoryRepo.AddItem` iterated over `step.Rewards.Items` (service.go
lines 312-316): the loop stops at the first error. -/
def addRewardItems (st : GameState) (playerID : String) (now : Nat) :
    List RewardItem → Except AppError GameState
  | [] => .ok st
  | item :: rest =>
    match addItem st playerID item.itemId item.qty now with
    | .error e => .error e
    | .ok st1 => addRewardItems st1 playerID now rest

/-- The response assembled on the fresh path (service.go lines 331-339):
`Idempotency` is `false` on a first success. -/
def mkAttemptResponse (runID stepID : String) (distance : ℚ) (rewards : Rewards)
    (updatedRun : Run) (updatedPlayer : Player) : AttemptResponse :=
  { runId := runID, stepId := stepID, distanceM := distance,
    rewards := rewards, run := updatedRun, player := updatedPlayer,
    idempotency := false }

/-- The run mutation of the attempt transaction (service.go lines 318-325):
append the killed-step entry, advance `CurrentStep` by one, transition to
`completed` and stamp `EndedAt` when the new current step exceeds the
dungeon's step count, and touch `UpdatedAt`. -/
def advanceRun (run : Run) (stepID recordID : String) (now : Nat) (stepsCount : Nat) : Run :=
  let run1 : Run := { run with
    killedSteps := run.killedSteps ++
      [{ bossStepId := stepID, killedAt := now, attemptId := recordID }],
    currentStep := run.currentStep + 1 }
  let run2 :=
    if run1.currentStep > (stepsCount : Int) then
      { run1 with state := .completed, endedAt := some now }
    else run1
  { run2 with updatedAt := now }

/-- The transaction body of `Service.Attempt` (service.go lines 303-346):
insert the pending idempotency record, credit the gold reward, add each
reward item, advance the run (`advanceRun`), persist the run, then finalize
the record with the response and `rewardApplied = true`.  All writes land
only if every step succeeds. -/
def attemptTx (now : Nat) (st : GameState) (run : Run) (step : BossStep)
    (playerID runID stepID : String) (record : AttemptRecord)
    (stepsCount : Nat) (distance : ℚ) :
    Except AppError (AttemptResponse × GameState) :=
  match createAttemptRecord st record with
  | .error e => .error e
  | .ok st1 =>
  match incrementGold st1 playerID step.rewards.gold now with
  | .error e => .error e
  | .ok (updatedPlayer, st2) =>
  match addRewardItems st2 playerID now step.rewards.items with
  | .error e => .error e
  | .ok st3 =>
  match replaceRun st3 (advanceRun run stepID record.id now stepsCount) with
  | .error e => .error e
  | .ok (updatedRun, st4) =>
  match updateAttemptRecord st4 record.id
      (some (mkAttemptResponse runID stepID distance step.rewards updatedRun updatedPlayer)) true with
  | .error e => .error e
  | .ok st5 =>
    .ok (mkAttemptResponse runID stepID distance step.rewards updatedRun updatedPlayer, st5)

/-- `Service.Attempt` (service.go lines 240-366).  `hav` is the geofence
evaluator (`geo.HaversineMeters` in Go), `now` the value of `s.now()`, and
`newID` the `functions.NewUUID()` result for the idempotency record.
Returns the typed result and the datastore after the call. -/
def Attempt (hav : ℚ → ℚ → ℚ → ℚ → ℚ) (now : Nat) (newID : String)
    (st : GameState) (playerID runID stepID : String) (req : AttemptRequest) :
    Except AppError AttemptResponse × GameState :=
  if !req.validate then (.error .validation, st) else
  match getRunByID st runID with
  | none => (.error .notFound, st)
  | some run =>
  if run.playerId ≠ playerID then (.error .forbidden, st) else
  if run.state ≠ .active then (.error .conflict, st) else
  match getStep st run.dungeonId stepID with
  | none => (.error .notFound, st)
  | some step =>
  if step.order ≠ run.currentStep then (.error .wrongStepOrder, st) else
  if hav (req.lat.getD 0) (req.lon.getD 0) step.location.lat step.location.lon >
      step.location.radiusMeters then (.error .notInRange, st) else
  match getAttemptRecord st runID stepID with
  | some existing => (attemptReplayCheck existing req.idempotencyKey, st)
  | none =>
  match attemptTx now st run step playerID runID stepID
      { id := newID, runId := runID, stepId := stepID, playerId := playerID,
        idempotencyKey := req.idempotencyKey, rewardApplied := false,
        response := none, createdAt := now }
      (listStepsByDungeon st run.dungeonId).length
      (hav (req.lat.getD 0) (req.lon.getD 0) step.location.lat step.location.lon) with
  | .ok (response, st5) => (.ok response, st5)
  | .error e =>
    if e = .alreadyHandled then
      match getAttemptRecord st runID stepID with
      | none => (.error .notFound, st)
      | some rec => (attemptDuplicateRecovery rec req.idempotencyKey, st)
    else (.error e, st)

/-- The state after `n` repetitions of the same `Attempt` call, each against
the datastore left by the previous one. -/
def attemptIterState (hav : ℚ → ℚ → ℚ → ℚ → ℚ) (now : Nat) (newID : String)
    (playerID runID stepID : String) (req : AttemptRequest) :
    Nat → GameState → GameState
  | 0, st => st
  | n + 1, st =>
    attemptIterState hav now newID playerID runID stepID req n
      (Attempt hav now newID st playerID runID stepID req).2

/-- The listing rewrite of the buy settlement (auction service lines
159-165): a full fill becomes `sold` with the buyer recorded and quantity
zero, a partial fill keeps the status and decrements the quantity. -/
def settleListing (listing : Listing) (buyerID : String) (qty : Int) : Listing :=
  if qty = listing.qty then
    { listing with status := .sold, buyerId := buyerID, qty := 0 }
  else
    { listing with qty := listing.qty - qty }

/-- The trade receipt of the buy settlement (auction service lines
171-180). -/
def mkTrade (newTradeID buyerID : String) (listing : Listing) (qty totalPrice : Int)
    (now : Nat) : Trade :=
  { id := newTradeID, buyerId := buyerID, sellerId := listing.sellerId,
    listingId := listing.id, itemId := listing.itemId, qty := qty,
    totalPrice := totalPrice, createdAt := now }

/-- The transaction body of `Service.Buy` (auction service lines 140-185):
re-load the buyer, check funds, debit the buyer, credit the seller, move
the items, replace the listing (`settleListing`), append the trade receipt
(`mkTrade`).  All writes land only if every step succeeds. -/
def buyTx (now : Nat) (newTradeID : String) (st : GameState)
    (buyerID : String) (listing : Listing) (req : BuyListingRequest)
    (totalPrice : Int) : Except AppError (Listing × GameState) :=
  match getPlayerByID st buyerID with
  | none => .error .notFound
  | some buyer =>
  if buyer.gold < totalPrice then .error .insufficient else
  match setGold st buyerID (buyer.gold - totalPrice) now with
  | .error e => .error e
  | .ok (_, st1) =>
  match incrementGold st1 listing.sellerId totalPrice now with
  | .error e => .error e
  | .ok (_, st2) =>
  match addItem st2 buyerID listing.itemId req.qty now with
  | .error e => .error e
  | .ok st3 =>
  match replaceListing st3 (settleListing listing buyerID req.qty) with
  | .error e => .error e
  | .ok (out, st4) =>
  match insertTrade st4 (mkTrade newTradeID buyerID listing req.qty totalPrice now) with
  | .error e => .error e
  | .ok st5 => .ok (out, st5)

/-- `Service.Buy` (auction service lines 115-190).  `now` is the service
clock (both `s.now()` calls observe the same instant) and `newTradeID` the
fresh trade id.  Returns the updated listing and the datastore after the
call. -/
def Buy (now : Nat) (newTradeID : String) (st : GameState)
    (buyerID listingID : String) (req : BuyListingRequest) :
    Except AppError Listing × GameState :=
  if !req.validate then (.error .validation, st) else
  match auctionGetByID st listingID with
  | none => (.error .notFound, st)
  | some listing =>
  if listing.status ≠ .active then (.error .conflict, st) else
  if listing.sellerId = buyerID then (.error .conflict, st) else
  if req.qty > listing.qty then (.error .conflict, st) else
  if (match listing.expiresAt with | some t => decide (t < now) | none => false) then
    (.error .conflict, st) else
  match buyTx now newTradeID st buyerID listing req (req.qty * listing.pricePerUnit) with
  | .ok (out, st5) => (.ok out, st5)
  | .error e => (.error e, st)

/-- One entry of the attempt sequence: the target step id, the fresh record
id, and the request. -/
abbrev AttemptCall : Type := String × String × AttemptRequest

/-- The datastore after firing a sequence of attempt calls in order, each
against the state left by the previous one. -/
def runAttempts (hav : ℚ → ℚ → ℚ → ℚ → ℚ) (now : Nat) (playerID runID : String) :
    List AttemptCall → GameState → GameState
  | [], st => st
  | (stepID, newID, req) :: rest, st =>
    runAttempts hav now playerID runID rest
      (Attempt hav now newID st playerID runID stepID req).2

/-- Whether every call of the sequence returns a fresh success: an `ok`
response with the replay flag false. -/
def attemptsAllFresh (hav : ℚ → ℚ → ℚ → ℚ → ℚ) (now : Nat) (playerID runID : String) :
    List AttemptCall → GameState → Bool
  | [], _ => true
  | (stepID, newID, req) :: rest, st =>
    match Attempt hav now newID st playerID runID stepID req with
    | (.ok r, st1) => !r.idempotency && attemptsAllFresh hav now playerID runID rest st1
    | (.error _, _) => false

/-! ### Concrete fixtures used by witnesses and counterexamples

A two-step dungeon `d-1` with an active fresh run of player `p-1`, mirroring
the scenario of section 8 of the spec and `service_test.go`.  `hav0` is a
concrete geofence evaluator placing every query at distance 0. -/

def hav0 : ℚ → ℚ → ℚ → ℚ → ℚ := fun _ _ _ _ => 0

def wRun : Run :=
  { id := "run-1", dungeonId := "d-1", playerId := "p-1", state := .active,
    currentStep := 1, killedSteps := [], startedAt := 0, endedAt := none,
    updatedAt := 0 }

def wStep1 : BossStep :=
  { id := "s-1", dungeonId := "d-1", order := 1,
    location := { lat := 0, lon := 0, radiusMeters := 100 },
    rewards := { gold := 5, items := [{ itemId := "itm", qty := 2 }] } }

def wStep2 : BossStep :=
  { id := "s-2", dungeonId := "d-1", order := 2,
    location := { lat := 0, lon := 0, radiusMeters := 100 },
    rewards := { gold := 7, items := [] } }

def wState : GameState :=
  { runs := [wRun], steps := [wStep1, wStep2],
    players := [{ id := "p-1", gold := 0, updatedAt := 0 }],
    inventory := [], attempts := [], listings := [], trades := [] }

def wReq : AttemptRequest :=
  { lat := some 0, lon := some 0, idempotencyKey := "idem-key-123" }

def wReq2 : AttemptRequest :=
  { lat := some 0, lon := some 0, idempotencyKey := "other-key-456" }

/-- `wState` with the run already past step 1 (`currentStep = 2`). -/
def wStateAhead : GameState := { wState with runs := [{ wRun with currentStep := 2 }] }

/-- The response stored by a finished first attempt in the fixtures. -/
def wStoredResponse : AttemptResponse :=
  { zeroAttemptResponse with runId := "run-1", stepId := "s-1" }

/-- A finalized idempotency record for `(run-1, s-1)` with key
`idem-key-123` and a stored response. -/
def wRecord : AttemptRecord :=
  { id := "att-0", runId := "run-1", stepId := "s-1", playerId := "p-1",
    idempotencyKey := "idem-key-123", rewardApplied := true,
    response := some wStoredResponse, createdAt := 3 }

/-- `wState` with `wRecord` already stored (the run still targets step 1). -/
def wStateRecorded : GameState := { wState with attempts := [wRecord] }

/-- `wStateRecorded` but the stored idempotency key is empty. -/
def wStateEmptyKey : GameState :=
  { wState with attempts := [{ wRecord with idempotencyKey := "" }] }

/-- The datastore after the first successful attempt at step 1 of the
fixture dungeon. -/
def wAfterFirst : GameState :=
  (Attempt hav0 10 "att-1" wState "p-1" "run-1" "s-1" wReq).2

/-! ### Marketplace fixtures -/

def wSeller : Player := { id := "seller", gold := 100, updatedAt := 0 }

def wBuyer : Player := { id := "buyer", gold := 50, updatedAt := 0 }

def wListing : Listing :=
  { id := "l-1", sellerId := "seller", buyerId := "", itemId := "itm", qty := 3,
    pricePerUnit := 10, status := .active, createdAt := 0, expiresAt := none }

def wMarket : GameState :=
  { runs := [], steps := [], players := [wSeller, wBuyer], inventory := [],
    attempts := [], listings := [wListing], trades := [] }

/-- The datastore after buying 2 of the 3 listed units on the market
fixture. -/
def wMarketAfter : GameState := (Buy 20 "t-1" wMarket "buyer" "l-1" { qty := 2 }).2

/-- The datastore after a full fill of the remaining 3 units. -/
def wMarketAfterFull : GameState := (Buy 21 "t-2" wMarket "buyer" "l-1" { qty := 3 }).2

/-- The two-call sequence clearing both steps of the fixture dungeon in
order. -/
def wCalls : List AttemptCall := [("s-1", "att-1", wReq), ("s-2", "att-2", wReq)]

/-! ### C9: the geofence evaluator `geo.HaversineMeters`

The evaluator is verified over the real numbers (the idealization of the
Go `float64` arithmetic): the atan2 form computed by the source equals the
canonical haversine formula and the great-circle surface distance on the
spherical earth of radius 6371000 m. -/

noncomputable section

open Real

/-- `geo.toRadians`. -/
def toRadians (v : ℝ) : ℝ := v * (π / 180)

/-- `earthRadiusMeters` (haversine.go). -/
def earthRadiusMeters : ℝ := 6371000

/-- Go `math.Atan2(y, x)` over the reals (IEEE signed zeros and non-finite
inputs have no real counterpart; for `x = 0` the real zero takes the
positive-zero branches). -/
def atan2 (y x : ℝ) : ℝ :=
  if 0 < x then arctan (y / x)
  else if x < 0 then
    (if 0 ≤ y then arctan (y / x) + π else arctan (y / x) - π)
  else if 0 < y then π / 2
  else if y < 0 then -(π / 2)
  else 0

/-- `geo.HaversineMeters` (haversine.go lines 306-315), line by line. -/
def HaversineMeters (lat1 lon1 lat2 lon2 : ℝ) : ℝ :=
  let dLat := toRadians (lat2 - lat1)
  let dLon := toRadians (lon2 - lon1)
  let lat1R := toRadians lat1
  let lat2R := toRadians lat2
  let a := sin (dLat / 2) * sin (dLat / 2) +
    cos lat1R * cos lat2R * (sin (dLon / 2) * sin (dLon / 2))
  let c := 2 * atan2 (sqrt a) (sqrt (1 - a))
  earthRadiusMeters * c

/-- The haversine formula as the spec words it: the great-circle distance
on a sphere of radius 6371000 m via
`d = 2 R arcsin (sqrt (sin^2 (dphi/2) + cos phi1 cos phi2 sin^2 (dlambda/2)))`,
with the latitudes and longitudes converted from degrees to radians. -/
def haversineFormulaSpec (lat1 lon1 lat2 lon2 : ℝ) : ℝ :=
  2 * earthRadiusMeters * arcsin (sqrt (sin (toRadians (lat2 - lat1) / 2) ^ 2 +
    cos (toRadians lat1) * cos (toRadians lat2) * sin (toRadians (lon2 - lon1) / 2) ^ 2))

/-- The great-circle surface distance on the same sphere: radius times the
central angle between the two surface points (arccos of the dot product of
their unit vectors). -/
def greatCircleDistanceSpec (lat1 lon1 lat2 lon2 : ℝ) : ℝ :=
  earthRadiusMeters * arccos (sin (toRadians lat1) * sin (toRadians lat2) +
    cos (toRadians lat1) * cos (toRadians lat2) *
      cos (toRadians lon2 - toRadians lon1))

end

/-! ### Generic lemmas about the list model of Mongo update operations -/

theorem findOneAndUpdate_some_of_const {p : α → Bool} {y : α} {l l' : List α} {u : α}
    (h : findOneAndUpdate p (fun _ => y) l = some (u, l')) : u = y := by
  induction l generalizing l' with
  | nil => simp [findOneAndUpdate] at h
  | cons x xs ih =>
    simp only [findOneAndUpdate] at h
    by_cases hx : p x
    · simp [hx] at h
      exact h.1.symm
    · simp [hx] at h
      obtain ⟨a, b, hab, hu, hl⟩ := h
      exact ih (hu ▸ hab)

theorem find?_after_findOneAndUpdate_self {p : α → Bool} {f : α → α} {l l' : List α} {u : α}
    (h : findOneAndUpdate p f l = some (u, l'))
    (hpf : ∀ x, p x = true → p (f x) = true) : l'.find? p = some u := by
  induction l generalizing l' with
  | nil => simp [findOneAndUpdate] at h
  | cons x xs ih =>
    simp only [findOneAndUpdate] at h
    by_cases hx : p x
    · simp [hx] at h
      rw [← h.1, ← h.2]
      simp [List.find?, hpf x hx]
    · simp [hx] at h
      obtain ⟨a, b, hab, hu, hl⟩ := h
      rw [← hl]
      simp [List.find?, hx]
      exact ih (hu ▸ hab)

theorem find?_after_findOneAndUpdate_disjoint {p q : α → Bool} {f : α → α} {l l' : List α}
    {u : α} (h : findOneAndUpdate p f l = some (u, l'))
    (hpq : ∀ x, p x = true → q x = false) (hq : ∀ x, q (f x) = q x) :
    l'.find? q = l.find? q := by
  induction l generalizing l' with
  | nil => simp [findOneAndUpdate] at h
  | cons x xs ih =>
    simp only [findOneAndUpdate] at h
    by_cases hx : p x
    · simp [hx] at h
      rw [← h.2]
      simp [List.find?, hq x, hpq x hx]
    · simp [hx] at h
      obtain ⟨a, b, hab, hu, hl⟩ := h
      rw [← hl]
      simp only [List.find?]
      cases hqx : q x
      · exact ih (hu ▸ hab)
      · rfl

/-! ### Structural lemmas about the service building blocks -/

theorem attemptReplayCheck_ok_idempotency {e : AttemptRecord} {k : String}
    {r : AttemptResponse} (h : attemptReplayCheck e k = .ok r) : r.idempotency = true := by
  unfold attemptReplayCheck at h
  split at h
  · exact absurd h (by simp)
  · split at h
    · exact absurd h (by simp)
    · cases h; rfl

theorem attemptDuplicateRecovery_ok_idempotency {e : AttemptRecord} {k : String}
    {r : AttemptResponse} (h : attemptDuplicateRecovery e k = .ok r) :
    r.idempotency = true := by
  unfold attemptDuplicateRecovery at h
  split at h
  · exact absurd h (by simp)
  · cases h; rfl

theorem attemptReplayCheck_ne_notInRange (e : AttemptRecord) (k : String) :
    attemptReplayCheck e k ≠ .error .notInRange := by
  unfold attemptReplayCheck
  split
  · simp
  · split <;> simp

theorem attemptDuplicateRecovery_ne_notInRange (e : AttemptRecord) (k : String) :
    attemptDuplicateRecovery e k ≠ .error .notInRange := by
  unfold attemptDuplicateRecovery
  split <;> simp

theorem addItem_error_validation {st : GameState} {pid iid : String} {qty : Int} {now : Nat}
    {e : AppError} (h : addItem st pid iid qty now = .error e) : e = .validation := by
  unfold addItem at h
  split at h
  · cases h; rfl
  · split at h <;> simp at h

theorem addRewardItems_error_validation {st : GameState} {pid : String} {now : Nat}
    {items : List RewardItem} {e : AppError}
    (h : addRewardItems st pid now items = .error e) : e = .validation := by
  induction items generalizing st with
  | nil => simp [addRewardItems] at h
  | cons item rest ih =>
    simp only [addRewardItems] at h
    split at h
    · cases h
      exact addItem_error_validation (by assumption)
    · exact ih h

theorem attemptTx_error_cases {now : Nat} {st : GameState} {run : Run} {step : BossStep}
    {playerID runID stepID : String} {record : AttemptRecord} {cnt : Nat} {d : ℚ}
    {e : AppError} (h : attemptTx now st run step playerID runID stepID record cnt d = .error e) :
    e = .alreadyHandled ∨ e = .notFound ∨ e = .validation := by
  unfold attemptTx at h
  split at h
  · cases h
    rename_i he
    unfold createAttemptRecord at he
    split at he
    · cases he; left; rfl
    · simp at he
  · split at h
    · cases h
      rename_i he
      unfold incrementGold at he
      split at he
      · cases he; right; left; rfl
      · simp at he
    · split at h
      · cases h
        right; right
        exact addRewardItems_error_validation (by assumption)
      · split at h
        · cases h
          rename_i he
          unfold replaceRun at he
          split at he
          · cases he; right; left; rfl
          · simp at he
        · split at h
          · cases h
            rename_i he
            unfold updateAttemptRecord at he
            split at he
            · cases he; right; left; rfl
            · simp at he
          · simp at h

/-! ### C5: wrong step order is rejected regardless of geofence admission -/

/-- C5.  For every attempt on an active run owned by the caller, a targeted
step whose order differs from the run's current step fails with
`ErrWrongStepOrder` and leaves the datastore unchanged, for every submitted
position (the geofence is evaluated only after the order check, so
admission is irrelevant). -/
theorem attempt_wrong_step_order_rejected
    (hav : ℚ → ℚ → ℚ → ℚ → ℚ) (now : Nat) (newID : String) (st : GameState)
    (playerID runID stepID : String) (req : AttemptRequest) (run : Run) (step : BossStep)
    (hval : req.validate = true)
    (hrun : getRunByID st runID = some run)
    (hown : run.playerId = playerID)
    (hact : run.state = .active)
    (hstep : getStep st run.dungeonId stepID = some step)
    (hord : step.order ≠ run.currentStep) :
    Attempt hav now newID st playerID runID stepID req = (.error .wrongStepOrder, st) := by
  simp [Attempt, hval, hrun, hown, hact, hstep, hord]

/-- Witness for C5: the concrete run already at step 2 attempted at the
step of order 1, from a position right on the step (distance 0 under the
constant evaluator), still fails `ErrWrongStepOrder`. -/
theorem attempt_wrong_step_order_rejected_witness :
    wReq.validate = true ∧
    getRunByID wStateAhead "run-1" = some { wRun with currentStep := 2 } ∧
    getStep wStateAhead "d-1" "s-1" = some wStep1 ∧
    Attempt hav0 10 "att-1" wStateAhead "p-1" "run-1" "s-1" wReq =
      (.error .wrongStepOrder, wStateAhead) := by
  refine ⟨by decide, by decide, by decide, ?_⟩
  exact attempt_wrong_step_order_rejected hav0 10 "att-1" wStateAhead
    "p-1" "run-1" "s-1" wReq { wRun with currentStep := 2 } wStep1
    (by decide) (by decide) (by decide) (by decide) (by decide) (by decide)

/-! ### C6: geofence rejection and boundary admission -/

/-- C6.  With the earlier guards passing, a submitted position whose
evaluated distance strictly exceeds the step's radius fails
`ErrNotInRange` with the datastore unchanged (so no idempotency record is
created); and whenever the distance is at most the radius — including
exactly equal — the attempt is admitted past the geofence: whatever else
happens, the result is never `ErrNotInRange`.  The distance function is
the service's geofence evaluator (`geo.HaversineMeters` in Go, passed here
as `hav`; the evaluator itself is verified in C9). -/
theorem attempt_geofence_admission
    (hav : ℚ → ℚ → ℚ → ℚ → ℚ) (now : Nat) (newID : String) (st : GameState)
    (playerID runID stepID : String) (req : AttemptRequest) (run : Run) (step : BossStep)
    (hval : req.validate = true)
    (hrun : getRunByID st runID = some run)
    (hown : run.playerId = playerID)
    (hact : run.state = .active)
    (hstep : getStep st run.dungeonId stepID = some step)
    (hord : step.order = run.currentStep) :
    (step.location.radiusMeters <
        hav (req.lat.getD 0) (req.lon.getD 0) step.location.lat step.location.lon →
      Attempt hav now newID st playerID runID stepID req = (.error .notInRange, st)) ∧
    (hav (req.lat.getD 0) (req.lon.getD 0) step.location.lat step.location.lon ≤
        step.location.radiusMeters →
      (Attempt hav now newID st playerID runID stepID req).1 ≠ .error .notInRange) := by
  constructor
  · intro hd
    simp [Attempt, hval, hrun, hown, hact, hstep, hord, hd]
  · intro hd
    simp only [Attempt, hval, hrun, hown, hact, hstep, hord]
    rw [if_neg (by simp), if_neg (by simp), if_neg (by simp), if_neg (by simp),
      if_neg (not_lt.mpr hd)]
    cases hrec : getAttemptRecord st runID stepID with
    | some existing => simpa using attemptReplayCheck_ne_notInRange existing req.idempotencyKey
    | none =>
      repeat' split
      all_goals try simp_all
      all_goals (rcases attemptTx_error_cases (by assumption) with h | h | h <;> simp [h])

/-- Witness for C6: from the fresh two-step fixture, an evaluator placing
the player at 150 m of the 100 m step fails `ErrNotInRange` with the state
unchanged, while an evaluator placing the player at exactly 100 m — the
boundary — is admitted (the result is not `ErrNotInRange`). -/
theorem attempt_geofence_admission_witness :
    wReq.validate = true ∧
    Attempt (fun _ _ _ _ => 150) 10 "att-1" wState "p-1" "run-1" "s-1" wReq =
      (.error .notInRange, wState) ∧
    (Attempt (fun _ _ _ _ => 100) 10 "att-1" wState "p-1" "run-1" "s-1" wReq).1 ≠
      .error .notInRange := by
  refine ⟨by decide, ?_, ?_⟩
  · exact (attempt_geofence_admission (fun _ _ _ _ => 150) 10 "att-1" wState
      "p-1" "run-1" "s-1" wReq wRun wStep1 (by decide) (by decide) (by decide)
      (by decide) (by decide) (by decide)).1 (by decide)
  · exact (attempt_geofence_admission (fun _ _ _ _ => 100) 10 "att-1" wState
      "p-1" "run-1" "s-1" wReq wRun wStep1 (by decide) (by decide) (by decide)
      (by decide) (by decide) (by decide)).2 (by decide)

/-! ### C1: idempotent replay -/

/-- Counterexample to C1 as stated: on the fresh fixture the first attempt
at step 1 succeeds (replay flag false), but repeating the exact same call —
same run, step and idempotency key — does not return the first response
with the replay flag set: it fails `ErrWrongStepOrder`, because the
committed success advanced the run's current step past the step's order and
`Service.Attempt` checks step order before consulting the idempotency
record. -/
theorem attempt_retry_after_success_not_replayed :
    (Attempt hav0 10 "att-1" wState "p-1" "run-1" "s-1" wReq).1.toOption.map
      AttemptResponse.idempotency = some false ∧
    Attempt hav0 11 "att-2" wAfterFirst "p-1" "run-1" "s-1" wReq =
      (.error .wrongStepOrder, wAfterFirst) := by
  constructor
  · decide
  · decide

/-- C1 as amended.  Whenever the attempt record for `(run, step)` exists
with the reward applied and a stored key that is empty or equal to the
request's key, and the run still targets that step (guards and geofence
pass), the call returns exactly the stored response with the replay flag
set true and changes nothing — hence every number of repetitions of the
call leaves the datastore fixed and keeps returning that same response. -/
theorem attempt_same_key_replay_returns_stored_response
    (hav : ℚ → ℚ → ℚ → ℚ → ℚ) (now : Nat) (newID : String) (st : GameState)
    (playerID runID stepID : String) (req : AttemptRequest) (run : Run) (step : BossStep)
    (rec : AttemptRecord) (resp0 : AttemptResponse)
    (hval : req.validate = true)
    (hrun : getRunByID st runID = some run)
    (hown : run.playerId = playerID)
    (hact : run.state = .active)
    (hstep : getStep st run.dungeonId stepID = some step)
    (hord : step.order = run.currentStep)
    (hd : hav (req.lat.getD 0) (req.lon.getD 0) step.location.lat step.location.lon ≤
        step.location.radiusMeters)
    (hrec : getAttemptRecord st runID stepID = some rec)
    (happ : rec.rewardApplied = true)
    (hkey : rec.idempotencyKey = "" ∨ rec.idempotencyKey = req.idempotencyKey)
    (hresp : rec.response = some resp0) :
    Attempt hav now newID st playerID runID stepID req =
      (.ok { resp0 with idempotency := true }, st) ∧
    ∀ n, attemptIterState hav now newID playerID runID stepID req n st = st := by
  have hmain : Attempt hav now newID st playerID runID stepID req =
      (.ok { resp0 with idempotency := true }, st) := by
    simp only [Attempt, hval, hrun, hown, hact, hstep, hord]
    rw [if_neg (by simp), if_neg (by simp), if_neg (by simp), if_neg (by simp),
      if_neg (not_lt.mpr hd), hrec]
    simp only [attemptReplayCheck, decodeAttemptResponse, happ, hresp]
    rcases hkey with hk | hk <;> simp [hk]
  refine ⟨hmain, ?_⟩
  intro n
  induction n with
  | zero => rfl
  | succ n ih =>
    show attemptIterState hav now newID playerID runID stepID req n
      (Attempt hav now newID st playerID runID stepID req).2 = st
    rw [hmain]
    exact ih

/-- Witness for C1's amended theorem: the fixture with a finalized record
for `(run-1, s-1)` and matching key replays the stored response with the
flag set, and three repetitions leave the datastore fixed. -/
theorem attempt_same_key_replay_witness :
    wReq.validate = true ∧
    getAttemptRecord wStateRecorded "run-1" "s-1" = some wRecord ∧
    Attempt hav0 10 "att-9" wStateRecorded "p-1" "run-1" "s-1" wReq =
      (.ok { wStoredResponse with idempotency := true }, wStateRecorded) ∧
    attemptIterState hav0 10 "att-9" "p-1" "run-1" "s-1" wReq 3 wStateRecorded =
      wStateRecorded := by
  have h := attempt_same_key_replay_returns_stored_response hav0 10 "att-9"
    wStateRecorded "p-1" "run-1" "s-1" wReq wRun wStep1 wRecord wStoredResponse
    (by decide) (by decide) (by decide) (by decide) (by decide) (by decide)
    (by decide) (by decide) (by decide) (Or.inr (by decide)) (by decide)
  exact ⟨by decide, by decide, h.1, h.2 3⟩

/-! ### C2: reused step with a different idempotency key -/

/-- Counterexample to C2 as stated: after the first successful attempt at
step 1 (whose record stored key `idem-key-123`), a second call reusing
`(run-1, s-1)` with the different key `other-key-456` does not fail
`ErrAlreadyHandled` — it fails `ErrWrongStepOrder`, because the run has
advanced and the order check precedes the idempotency lookup.  (No reward
is granted either way: the returned state is unchanged.) -/
theorem attempt_different_key_after_success_not_already_handled :
    (Attempt hav0 10 "att-1" wState "p-1" "run-1" "s-1" wReq).1.toOption.map
      AttemptResponse.idempotency = some false ∧
    getAttemptRecord wAfterFirst "run-1" "s-1" ≠ none ∧
    Attempt hav0 11 "att-2" wAfterFirst "p-1" "run-1" "s-1" wReq2 =
      (.error .wrongStepOrder, wAfterFirst) := by
  refine ⟨by decide, by decide, by decide⟩

/-- C2 as amended.  When the attempt record for `(run, step)` exists with a
non-empty stored key different from the request's key and the run still
targets that step (guards and geofence pass), the call fails
`ErrAlreadyHandled` and the datastore — balances and inventory included —
is returned unchanged; no additional reward is granted. -/
theorem attempt_different_key_rejected_already_handled
    (hav : ℚ → ℚ → ℚ → ℚ → ℚ) (now : Nat) (newID : String) (st : GameState)
    (playerID runID stepID : String) (req : AttemptRequest) (run : Run) (step : BossStep)
    (rec : AttemptRecord)
    (hval : req.validate = true)
    (hrun : getRunByID st runID = some run)
    (hown : run.playerId = playerID)
    (hact : run.state = .active)
    (hstep : getStep st run.dungeonId stepID = some step)
    (hord : step.order = run.currentStep)
    (hd : hav (req.lat.getD 0) (req.lon.getD 0) step.location.lat step.location.lon ≤
        step.location.radiusMeters)
    (hrec : getAttemptRecord st runID stepID = some rec)
    (hne : rec.idempotencyKey ≠ "")
    (hdiff : rec.idempotencyKey ≠ req.idempotencyKey) :
    Attempt hav now newID st playerID runID stepID req = (.error .alreadyHandled, st) := by
  simp only [Attempt, hval, hrun, hown, hact, hstep, hord]
  rw [if_neg (by simp), if_neg (by simp), if_neg (by simp), if_neg (by simp),
    if_neg (not_lt.mpr hd), hrec]
  simp [attemptReplayCheck, hne, hdiff]

/-- Witness for C2's amended theorem: the recorded fixture called with the
different key `other-key-456` fails `ErrAlreadyHandled` and leaves the
state unchanged. -/
theorem attempt_different_key_rejected_witness :
    wReq2.validate = true ∧
    wRecord.idempotencyKey ≠ "" ∧
    wRecord.idempotencyKey ≠ wReq2.idempotencyKey ∧
    Attempt hav0 10 "att-9" wStateRecorded "p-1" "run-1" "s-1" wReq2 =
      (.error .alreadyHandled, wStateRecorded) := by
  refine ⟨by decide, by decide, by decide, ?_⟩
  exact attempt_different_key_rejected_already_handled hav0 10 "att-9"
    wStateRecorded "p-1" "run-1" "s-1" wReq2 wRun wStep1 wRecord
    (by decide) (by decide) (by decide) (by decide) (by decide) (by decide)
    (by decide) (by decide) (by decide) (by decide)

/-! ### C10: an empty stored idempotency key never causes a key-mismatch
rejection -/

/-- C10.  First conjunct: whenever the attempt record for `(run, step)`
exists with an empty stored key, the outcome of `Service.Attempt` does not
depend on the request's idempotency key at all (for structurally valid
requests sharing the same position) — in particular no key mismatch is ever
diagnosed on the lookup path.  Second conjunct: on the duplicate-insert
recovery path an empty stored key likewise replays the stored response for
every request key instead of failing `ErrAlreadyHandled`. -/
theorem attempt_empty_stored_key_ignores_request_key :
    (∀ (hav : ℚ → ℚ → ℚ → ℚ → ℚ) (now : Nat) (newID : String) (st : GameState)
        (playerID runID stepID : String) (req : AttemptRequest) (k2 : String)
        (rec : AttemptRecord),
      getAttemptRecord st runID stepID = some rec →
      rec.idempotencyKey = "" →
      req.validate = true →
      (AttemptRequest.mk req.lat req.lon k2).validate = true →
      Attempt hav now newID st playerID runID stepID req =
        Attempt hav now newID st playerID runID stepID
          (AttemptRequest.mk req.lat req.lon k2)) ∧
    (∀ (rec : AttemptRecord) (k : String), rec.idempotencyKey = "" →
      attemptDuplicateRecovery rec k =
        .ok { decodeAttemptResponse rec.response with idempotency := true }) := by
  constructor
  · intro hav now newID st playerID runID stepID req k2 rec hrec hk hval hval2
    simp [Attempt, hval, hval2, hrec, attemptReplayCheck, hk]
  · intro rec k hk
    simp [attemptDuplicateRecovery, hk]

/-- Witness for C10: with the fixture record's key emptied, the call with
key `idem-key-123` and the call with key `other-key-456` coincide, and the
recovery path replays for an arbitrary key. -/
theorem attempt_empty_stored_key_witness :
    getAttemptRecord wStateEmptyKey "run-1" "s-1" =
      some { wRecord with idempotencyKey := "" } ∧
    Attempt hav0 10 "att-9" wStateEmptyKey "p-1" "run-1" "s-1" wReq =
      Attempt hav0 10 "att-9" wStateEmptyKey "p-1" "run-1" "s-1"
        (AttemptRequest.mk wReq.lat wReq.lon "other-key-456") ∧
    attemptDuplicateRecovery { wRecord with idempotencyKey := "" } "any-key-xyz" =
      .ok { decodeAttemptResponse wRecord.response with idempotency := true } := by
  refine ⟨by decide, ?_, ?_⟩
  · exact attempt_empty_stored_key_ignores_request_key.1 hav0 10 "att-9"
      wStateEmptyKey "p-1" "run-1" "s-1" wReq "other-key-456"
      { wRecord with idempotencyKey := "" } (by decide) (by decide)
      (by decide) (by decide)
  · exact attempt_empty_stored_key_ignores_request_key.2
      { wRecord with idempotencyKey := "" } "any-key-xyz" (by decide)

/-! ### C4: buy rejections mutate nothing -/

/-- C4.  A structurally valid buy request on an existing listing is
rejected — with the entire datastore (balances, inventories, listing,
trades) returned unchanged — as `ErrConflict` when the listing is not
active, when the buyer is the seller, when the requested quantity exceeds
the remaining quantity, or when the listing is past its expiry timestamp,
and as `ErrInsufficient` when every one of those preconditions holds but
the buyer's balance is below `qty * pricePerUnit` (the in-transaction funds
check aborts the transaction, rolling back all partial writes). -/
theorem buy_rejections_leave_state_unchanged
    (now : Nat) (tid : String) (st : GameState) (buyerID listingID : String)
    (req : BuyListingRequest) (listing : Listing) (e : AppError)
    (hval : req.validate = true)
    (hlst : auctionGetByID st listingID = some listing)
    (hcase :
      (listing.status ≠ .active ∧ e = .conflict)
      ∨ (listing.status = .active ∧ listing.sellerId = buyerID ∧ e = .conflict)
      ∨ (listing.status = .active ∧ listing.sellerId ≠ buyerID ∧
         listing.qty < req.qty ∧ e = .conflict)
      ∨ (listing.status = .active ∧ listing.sellerId ≠ buyerID ∧
         req.qty ≤ listing.qty ∧ (∃ t, listing.expiresAt = some t ∧ t < now) ∧
         e = .conflict)
      ∨ (listing.status = .active ∧ listing.sellerId ≠ buyerID ∧
         req.qty ≤ listing.qty ∧ (∀ t, listing.expiresAt = some t → now ≤ t) ∧
         (∃ buyer, getPlayerByID st buyerID = some buyer ∧
            buyer.gold < req.qty * listing.pricePerUnit) ∧
         e = .insufficient)) :
    Buy now tid st buyerID listingID req = (.error e, st) := by
  rcases hcase with ⟨h1, he⟩ | ⟨h1, h2, he⟩ | ⟨h1, h2, h3, he⟩
    | ⟨h1, h2, h3, ⟨t, ht, htlt⟩, he⟩ | ⟨h1, h2, h3, hnx, ⟨buyer, hb, hg⟩, he⟩
  · subst he
    simp [Buy, hval, hlst, h1]
  · subst he
    simp [Buy, hval, hlst, h1, h2]
  · subst he
    simp [Buy, hval, hlst, h1, h2, h3]
  · subst he
    simp [Buy, hval, hlst, h1, h2, not_lt.mpr h3, ht, htlt]
  · subst he
    have hx : (match listing.expiresAt with
        | some t => decide (t < now) | none => false) = false := by
      cases hxx : listing.expiresAt with
      | none => rfl
      | some t => simpa using hnx t hxx
    simp [Buy, buyTx, hval, hlst, h1, h2, not_lt.mpr h3, hx, hb, hg]

/-- Witness for C4: on the concrete market fixture (active listing of 3
units at 10 gold), requesting 4 units is rejected `ErrConflict` with the
datastore unchanged. -/
theorem buy_rejections_witness :
    BuyListingRequest.validate { qty := 4 } = true ∧
    auctionGetByID wMarket "l-1" = some wListing ∧
    wListing.qty < 4 ∧
    Buy 20 "t-1" wMarket "buyer" "l-1" { qty := 4 } = (.error .conflict, wMarket) := by
  refine ⟨by decide, by decide, by decide, ?_⟩
  exact buy_rejections_leave_state_unchanged 20 "t-1" wMarket "buyer" "l-1"
    { qty := 4 } wListing .conflict (by decide) (by decide)
    (Or.inr (Or.inr (Or.inl ⟨by decide, by decide, by decide, rfl⟩)))

/-! ### Inversion of a successful buy -/

theorem findOneAndUpdate_fst {p : α → Bool} {f : α → α} {l l' : List α} {u x : α}
    (h : findOneAndUpdate p f l = some (u, l')) (hf : l.find? p = some x) : u = f x := by
  induction l generalizing l' with
  | nil => simp [findOneAndUpdate] at h
  | cons y ys ih =>
    simp only [findOneAndUpdate] at h
    by_cases hy : p y
    · simp [hy] at h
      rw [List.find?_cons_of_pos _ hy] at hf
      cases hf
      exact h.1.symm
    · simp [hy] at h
      obtain ⟨a, b, hab, hu, hl⟩ := h
      rw [List.find?_cons_of_neg _ hy] at hf
      exact ih (hu ▸ hab) hf

theorem addItem_ok_fields {st st' : GameState} {pid iid : String} {q : Int} {now : Nat}
    (h : addItem st pid iid q now = .ok st') :
    st'.runs = st.runs ∧ st'.steps = st.steps ∧ st'.players = st.players ∧
    st'.attempts = st.attempts ∧ st'.listings = st.listings ∧ st'.trades = st.trades := by
  unfold addItem at h
  split at h
  · exact absurd h (by simp)
  · split at h
    · cases h; exact ⟨rfl, rfl, rfl, rfl, rfl, rfl⟩
    · cases h; exact ⟨rfl, rfl, rfl, rfl, rfl, rfl⟩

/-- Full characterization of a successful `buyTx`: the returned listing is
the settled one, the buyer was debited by exactly the total, the seller
credited by exactly the total, and exactly one trade receipt was appended
with the claimed fields. -/
theorem buyTx_ok_spec {now : Nat} {tid : String} {st st' : GameState}
    {buyerID : String} {listing : Listing} {req : BuyListingRequest} {total : Int}
    {out : Listing} {buyer seller : Player}
    (hsne : listing.sellerId ≠ buyerID)
    (hbuyer : getPlayerByID st buyerID = some buyer)
    (hseller : getPlayerByID st listing.sellerId = some seller)
    (h : buyTx now tid st buyerID listing req total = .ok (out, st')) :
    out = settleListing listing buyerID req.qty ∧
    getPlayerByID st' buyerID =
      some { buyer with gold := buyer.gold - total, updatedAt := now } ∧
    getPlayerByID st' listing.sellerId =
      some { seller with gold := seller.gold + total, updatedAt := now } ∧
    st'.trades = st.trades ++ [mkTrade tid buyerID listing req.qty total now] := by
  unfold buyTx at h
  simp only [hbuyer] at h
  by_cases hfund : buyer.gold < total
  · rw [if_pos hfund] at h
    exact absurd h (by simp)
  rw [if_neg hfund] at h
  cases hsg : setGold st buyerID (buyer.gold - total) now with
  | error e => exact absurd (hsg ▸ h) (by simp)
  | ok p1st1 =>
  obtain ⟨p1, st1⟩ := p1st1
  simp only [hsg] at h
  cases hig : incrementGold st1 listing.sellerId total now with
  | error e => exact absurd (hig ▸ h) (by simp)
  | ok p2st2 =>
  obtain ⟨p2, st2⟩ := p2st2
  simp only [hig] at h
  cases hai : addItem st2 buyerID listing.itemId req.qty now with
  | error e => exact absurd (hai ▸ h) (by simp)
  | ok st3 =>
  simp only [hai] at h
  cases hrl : replaceListing st3 (settleListing listing buyerID req.qty) with
  | error e => exact absurd (hrl ▸ h) (by simp)
  | ok outst4 =>
  obtain ⟨out0, st4⟩ := outst4
  simp only [hrl] at h
  cases hit : insertTrade st4 (mkTrade tid buyerID listing req.qty total now) with
  | error e => exact absurd (hit ▸ h) (by simp)
  | ok st5 =>
  simp only [hit] at h
  injection h with h
  injection h with hout hst5
  subst hout
  subst hst5
  -- unpack setGold
  unfold setGold at hsg
  cases hfind1 : findOneAndUpdate (fun p => p.id == buyerID)
      (fun p => { p with gold := buyer.gold - total, updatedAt := now }) st.players with
  | none => exact absurd (hfind1 ▸ hsg) (by simp)
  | some ups =>
  obtain ⟨u, ps⟩ := ups
  simp only [hfind1] at hsg
  injection hsg with hsg
  injection hsg with hu hst1
  subst hst1
  -- unpack incrementGold
  unfold incrementGold at hig
  simp only [] at hig
  cases hfind2 : findOneAndUpdate (fun p => p.id == listing.sellerId)
      (fun p => { p with gold := p.gold + total, updatedAt := now }) ps with
  | none => exact absurd (hfind2 ▸ hig) (by simp)
  | some vqs =>
  obtain ⟨v, qs⟩ := vqs
  simp only [hfind2] at hig
  injection hig with hig
  injection hig with hv hst2
  subst hst2
  obtain ⟨hr3, hs3, hpl3, ha3, hl3, ht3⟩ := addItem_ok_fields hai
  -- unpack replaceListing
  unfold replaceListing at hrl
  cases hfind4 : findOneAndUpdate
      (fun l => l.id == (settleListing listing buyerID req.qty).id)
      (fun _ => settleListing listing buyerID req.qty) st3.listings with
  | none => exact absurd (hfind4 ▸ hrl) (by simp)
  | some wls =>
  obtain ⟨w, ls⟩ := wls
  simp only [hfind4] at hrl
  injection hrl with hrl
  injection hrl with hw hst4
  subst hst4
  subst hw
  -- unpack insertTrade
  unfold insertTrade at hit
  split at hit
  · exact absurd hit (by simp)
  · injection hit with hit
    subst hit
    -- the two find? facts on the post-debit player list
    have hd1 : ∀ x : Player, (x.id == buyerID) = true →
        (x.id == listing.sellerId) = false := by
      intro x hx
      have hxid : x.id = buyerID := by simpa using hx
      simp only [hxid]
      simpa using fun hc => hsne hc.symm
    have hd2 : ∀ x : Player, (x.id == listing.sellerId) = true →
        (x.id == buyerID) = false := by
      intro x hx
      have hxid : x.id = listing.sellerId := by simpa using hx
      simp only [hxid]
      simpa using hsne
    have hbuy_ps : ps.find? (fun p => p.id == buyerID) =
        some { buyer with gold := buyer.gold - total, updatedAt := now } := by
      rw [find?_after_findOneAndUpdate_self hfind1 (fun x hx => hx),
        findOneAndUpdate_fst hfind1 hbuyer]
    have hsell_ps : ps.find? (fun p => p.id == listing.sellerId) = some seller := by
      rw [find?_after_findOneAndUpdate_disjoint hfind1 hd1 (fun x => rfl)]
      exact hseller
    have hbuy_qs : qs.find? (fun p => p.id == buyerID) =
        some { buyer with gold := buyer.gold - total, updatedAt := now } := by
      rw [find?_after_findOneAndUpdate_disjoint hfind2 hd2 (fun x => rfl)]
      exact hbuy_ps
    have hsell_qs : qs.find? (fun p => p.id == listing.sellerId) =
        some { seller with gold := seller.gold + total, updatedAt := now } := by
      rw [find?_after_findOneAndUpdate_self hfind2 (fun x hx => hx),
        findOneAndUpdate_fst hfind2 hsell_ps]
    refine ⟨?_, ?_, ?_, ?_⟩
    · exact findOneAndUpdate_some_of_const hfind4
    · show st3.players.find? (fun p => p.id == buyerID) = _
      rw [hpl3]
      exact hbuy_qs
    · show st3.players.find? (fun p => p.id == listing.sellerId) = _
      rw [hpl3]
      exact hsell_qs
    · show st3.trades ++ _ = _
      rw [ht3]

/-- Lighter inversion: a successful `buyTx` returns exactly the settled
listing. -/
theorem buyTx_ok_out {now : Nat} {tid : String} {st st' : GameState}
    {buyerID : String} {listing : Listing} {req : BuyListingRequest} {total : Int}
    {out : Listing}
    (h : buyTx now tid st buyerID listing req total = .ok (out, st')) :
    out = settleListing listing buyerID req.qty := by
  unfold buyTx at h
  cases hpl : getPlayerByID st buyerID with
  | none => exact absurd (hpl ▸ h) (by simp)
  | some buyer =>
  simp only [hpl] at h
  by_cases hfund : buyer.gold < total
  · rw [if_pos hfund] at h
    exact absurd h (by simp)
  rw [if_neg hfund] at h
  cases hsg : setGold st buyerID (buyer.gold - total) now with
  | error e => exact absurd (hsg ▸ h) (by simp)
  | ok p1st1 =>
  obtain ⟨p1, st1⟩ := p1st1
  simp only [hsg] at h
  cases hig : incrementGold st1 listing.sellerId total now with
  | error e => exact absurd (hig ▸ h) (by simp)
  | ok p2st2 =>
  obtain ⟨p2, st2⟩ := p2st2
  simp only [hig] at h
  cases hai : addItem st2 buyerID listing.itemId req.qty now with
  | error e => exact absurd (hai ▸ h) (by simp)
  | ok st3 =>
  simp only [hai] at h
  cases hrl : replaceListing st3 (settleListing listing buyerID req.qty) with
  | error e => exact absurd (hrl ▸ h) (by simp)
  | ok outst4 =>
  obtain ⟨out0, st4⟩ := outst4
  simp only [hrl] at h
  cases hit : insertTrade st4 (mkTrade tid buyerID listing req.qty total now) with
  | error e => exact absurd (hit ▸ h) (by simp)
  | ok st5 =>
  simp only [hit] at h
  injection h with h
  injection h with hout hst5
  subst hout
  unfold replaceListing at hrl
  cases hfind4 : findOneAndUpdate
      (fun l => l.id == (settleListing listing buyerID req.qty).id)
      (fun _ => settleListing listing buyerID req.qty) st3.listings with
  | none => exact absurd (hfind4 ▸ hrl) (by simp)
  | some wls =>
  obtain ⟨w, ls⟩ := wls
  simp only [hfind4] at hrl
  injection hrl with hrl
  injection hrl with hw hst4
  subst hw
  exact findOneAndUpdate_some_of_const hfind4

/-! ### C3: a successful buy is a single economic transfer -/

/-- C3.  On every successful buy of `req.qty` units at `pricePerUnit`, with
`total = req.qty * pricePerUnit`: the buyer's balance decreases by exactly
`total`, the seller's balance increases by exactly `total`, and exactly one
trade receipt recording buyer, seller, listing, item, quantity and total
price is appended to the trades collection — and because the settlement
runs inside the all-or-nothing transaction, the returned datastore carries
either all of these effects (success) or none (any failure returns the
input state unchanged). -/
theorem buy_success_transfers_total_and_appends_trade
    (now : Nat) (tid : String) (st st' : GameState) (buyerID listingID : String)
    (req : BuyListingRequest) (listing : Listing) (buyer seller : Player) (out : Listing)
    (hlst : auctionGetByID st listingID = some listing)
    (hbuyer : getPlayerByID st buyerID = some buyer)
    (hseller : getPlayerByID st listing.sellerId = some seller)
    (hok : Buy now tid st buyerID listingID req = (.ok out, st')) :
    getPlayerByID st' buyerID =
      some { buyer with
        gold := buyer.gold - req.qty * listing.pricePerUnit, updatedAt := now } ∧
    getPlayerByID st' listing.sellerId =
      some { seller with
        gold := seller.gold + req.qty * listing.pricePerUnit, updatedAt := now } ∧
    st'.trades = st.trades ++
      [{ id := tid, buyerId := buyerID, sellerId := listing.sellerId,
         listingId := listing.id, itemId := listing.itemId, qty := req.qty,
         totalPrice := req.qty * listing.pricePerUnit, createdAt := now }] := by
  unfold Buy at hok
  simp only [hlst] at hok
  split at hok
  · exact absurd hok (by simp)
  split at hok
  · exact absurd hok (by simp)
  split at hok
  · exact absurd hok (by simp)
  rename_i hsne
  split at hok
  · exact absurd hok (by simp)
  split at hok
  · exact absurd hok (by simp)
  split at hok
  · rename_i out0 st5 htx
    injection hok with hout hst5
    injection hout with hout
    subst hout
    subst hst5
    exact (buyTx_ok_spec hsne hbuyer hseller htx).2
  · exact absurd hok (by simp)

/-- Witness for C3: buying 2 units at 10 gold each moves exactly 20 gold
from `buyer` (50 → 30) to `seller` (100 → 120) and appends exactly the one
matching receipt. -/
theorem buy_success_witness :
    auctionGetByID wMarket "l-1" = some wListing ∧
    getPlayerByID wMarket "buyer" = some wBuyer ∧
    getPlayerByID wMarket "seller" = some wSeller ∧
    getPlayerByID wMarketAfter "buyer" =
      some { wBuyer with
        gold := wBuyer.gold - 2 * wListing.pricePerUnit, updatedAt := 20 } ∧
    getPlayerByID wMarketAfter "seller" =
      some { wSeller with
        gold := wSeller.gold + 2 * wListing.pricePerUnit, updatedAt := 20 } ∧
    wMarketAfter.trades = wMarket.trades ++
      [{ id := "t-1", buyerId := "buyer", sellerId := wListing.sellerId,
         listingId := wListing.id, itemId := wListing.itemId, qty := 2,
         totalPrice := 2 * wListing.pricePerUnit, createdAt := 20 }] := by
  have h := buy_success_transfers_total_and_appends_trade 20 "t-1" wMarket
    wMarketAfter "buyer" "l-1" { qty := 2 } wListing wBuyer wSeller
    { wListing with qty := 1 } (by decide) (by decide) (by decide) (by decide)
  exact ⟨by decide, by decide, by decide, h.1, h.2.1, h.2.2⟩

/-! ### C7: listing lifecycle on a successful buy -/

/-- C7.  On every successful buy: if the purchased quantity equals the
listing's full remaining quantity, the returned listing is `sold` with the
buyer recorded and quantity zero; if it is strictly less, the returned
listing keeps status `active` with the quantity decremented by the
purchase. -/
theorem buy_listing_update_full_or_partial
    (now : Nat) (tid : String) (st st' : GameState) (buyerID listingID : String)
    (req : BuyListingRequest) (listing : Listing) (out : Listing)
    (hlst : auctionGetByID st listingID = some listing)
    (hok : Buy now tid st buyerID listingID req = (.ok out, st')) :
    (req.qty = listing.qty →
      out = { listing with status := .sold, buyerId := buyerID, qty := 0 }) ∧
    (req.qty < listing.qty →
      out = { listing with qty := listing.qty - req.qty } ∧ out.status = .active) := by
  unfold Buy at hok
  simp only [hlst] at hok
  split at hok
  · exact absurd hok (by simp)
  split at hok
  · exact absurd hok (by simp)
  rename_i hstat
  split at hok
  · exact absurd hok (by simp)
  split at hok
  · exact absurd hok (by simp)
  split at hok
  · exact absurd hok (by simp)
  split at hok
  · rename_i out0 st5 htx
    injection hok with hout hst5
    injection hout with hout
    subst hout
    have hset := buyTx_ok_out htx
    have hact : listing.status = .active := by
      by_contra hc
      exact hstat hc
    constructor
    · intro hfull
      rw [hset]
      unfold settleListing
      rw [if_pos hfull]
    · intro hpart
      have hne : req.qty ≠ listing.qty := ne_of_lt hpart
      rw [hset]
      unfold settleListing
      rw [if_neg hne]
      exact ⟨rfl, hact⟩
  · exact absurd hok (by simp)

/-- Witness for C7: on the market fixture, buying all 3 units returns the
listing as `sold` with buyer recorded and quantity 0, and buying 2 of 3
returns it still `active` with quantity 1. -/
theorem buy_listing_update_witness :
    auctionGetByID wMarket "l-1" = some wListing ∧
    { wListing with status := .sold, buyerId := "buyer", qty := 0 } =
      { wListing with status := ListingStatus.sold, buyerId := "buyer", qty := 0 } ∧
    { wListing with qty := 1 } = { wListing with qty := wListing.qty - 2 } ∧
    ({ wListing with qty := 1 } : Listing).status = .active := by
  have hfull := buy_listing_update_full_or_partial 21 "t-2" wMarket wMarketAfterFull
    "buyer" "l-1" { qty := 3 } wListing
    { wListing with status := .sold, buyerId := "buyer", qty := 0 }
    (by decide) (by decide)
  have hpart := buy_listing_update_full_or_partial 20 "t-1" wMarket wMarketAfter
    "buyer" "l-1" { qty := 2 } wListing { wListing with qty := 1 }
    (by decide) (by decide)
  refine ⟨by decide, ?_, ?_, ?_⟩
  · have := hfull.1 (by decide)
    exact this ▸ rfl
  · have := (hpart.2 (by decide)).1
    exact this ▸ rfl
  · exact (hpart.2 (by decide)).2

/-! ### C8: full-run completion -/

theorem advanceRun_id (run : Run) (stepID rid : String) (now cnt : Nat) :
    (advanceRun run stepID rid now cnt).id = run.id := by
  simp only [advanceRun]
  split <;> rfl

theorem advanceRun_dungeonId (run : Run) (stepID rid : String) (now cnt : Nat) :
    (advanceRun run stepID rid now cnt).dungeonId = run.dungeonId := by
  simp only [advanceRun]
  split <;> rfl

theorem advanceRun_currentStep (run : Run) (stepID rid : String) (now cnt : Nat) :
    (advanceRun run stepID rid now cnt).currentStep = run.currentStep + 1 := by
  simp only [advanceRun]
  split <;> rfl

theorem advanceRun_killedSteps (run : Run) (stepID rid : String) (now cnt : Nat) :
    (advanceRun run stepID rid now cnt).killedSteps =
      run.killedSteps ++ [{ bossStepId := stepID, killedAt := now, attemptId := rid }] := by
  simp only [advanceRun]
  split <;> rfl

theorem advanceRun_state (run : Run) (stepID rid : String) (now cnt : Nat) :
    (advanceRun run stepID rid now cnt).state =
      (if run.currentStep + 1 > (cnt : Int) then RunState.completed else run.state) := by
  simp only [advanceRun]
  split <;> rfl

theorem advanceRun_endedAt (run : Run) (stepID rid : String) (now cnt : Nat) :
    (advanceRun run stepID rid now cnt).endedAt =
      (if run.currentStep + 1 > (cnt : Int) then some now else run.endedAt) := by
  simp only [advanceRun]
  split <;> rfl

theorem addRewardItems_ok_fields {st st' : GameState} {pid : String} {now : Nat}
    {items : List RewardItem} (h : addRewardItems st pid now items = .ok st') :
    st'.runs = st.runs ∧ st'.steps = st.steps ∧ st'.attempts = st.attempts ∧
    st'.listings = st.listings ∧ st'.trades = st.trades := by
  induction items generalizing st with
  | nil =>
    simp only [addRewardItems] at h
    injection h with h
    subst h
    exact ⟨rfl, rfl, rfl, rfl, rfl⟩
  | cons item rest ih =>
    simp only [addRewardItems] at h
    split at h
    · exact absurd h (by simp)
    · rename_i st1 hone
      obtain ⟨h1, h2, h3, h4, h5, h6⟩ := addItem_ok_fields hone
      obtain ⟨g1, g2, g3, g4, g5⟩ := ih h
      exact ⟨g1.trans h1, g2.trans h2, g3.trans h4, g4.trans h5, g5.trans h6⟩

/-- A successful attempt transaction preserves the step collection and
replaces the run with its advanced version; the returned response has the
replay flag false. -/
theorem attemptTx_ok_run {now : Nat} {st st' : GameState} {run : Run} {step : BossStep}
    {playerID runID stepID : String} {record : AttemptRecord} {cnt : Nat} {d : ℚ}
    {resp : AttemptResponse}
    (hid : run.id = runID)
    (h : attemptTx now st run step playerID runID stepID record cnt d = .ok (resp, st')) :
    st'.steps = st.steps ∧
    getRunByID st' runID = some (advanceRun run stepID record.id now cnt) ∧
    resp.idempotency = false := by
  unfold attemptTx at h
  cases hcr : createAttemptRecord st record with
  | error e => exact absurd (hcr ▸ h) (by simp)
  | ok st1 =>
  simp only [hcr] at h
  cases hig : incrementGold st1 playerID step.rewards.gold now with
  | error e => exact absurd (hig ▸ h) (by simp)
  | ok pst2 =>
  obtain ⟨p2, st2⟩ := pst2
  simp only [hig] at h
  cases hri : addRewardItems st2 playerID now step.rewards.items with
  | error e => exact absurd (hri ▸ h) (by simp)
  | ok st3 =>
  simp only [hri] at h
  cases hrr : replaceRun st3 (advanceRun run stepID record.id now cnt) with
  | error e => exact absurd (hrr ▸ h) (by simp)
  | ok rst4 =>
  obtain ⟨updatedRun, st4⟩ := rst4
  simp only [hrr] at h
  cases hua : updateAttemptRecord st4 record.id
      (some (mkAttemptResponse runID stepID d step.rewards updatedRun p2)) true with
  | error e => exact absurd (hua ▸ h) (by simp)
  | ok st5 =>
  simp only [hua] at h
  injection h with h
  injection h with hresp hst5
  subst hresp
  subst hst5
  -- unpack the write operations
  unfold createAttemptRecord at hcr
  split at hcr
  · exact absurd hcr (by simp)
  · injection hcr with hcr
    subst hcr
    unfold incrementGold at hig
    cases hfind2 : findOneAndUpdate (fun p => p.id == playerID)
        (fun p => { p with gold := p.gold + step.rewards.gold, updatedAt := now })
        ({ st with attempts := st.attempts ++ [record] } : GameState).players with
    | none => exact absurd (hfind2 ▸ hig) (by simp)
    | some vqs =>
    obtain ⟨v, qs⟩ := vqs
    simp only [hfind2] at hig
    injection hig with hig
    injection hig with hv hst2
    subst hst2
    obtain ⟨hr3, hs3, ha3, hl3, ht3⟩ := addRewardItems_ok_fields hri
    unfold replaceRun at hrr
    cases hfind4 : findOneAndUpdate
        (fun r => r.id == (advanceRun run stepID record.id now cnt).id)
        (fun _ => advanceRun run stepID record.id now cnt) st3.runs with
    | none => exact absurd (hfind4 ▸ hrr) (by simp)
    | some wls =>
    obtain ⟨w, ls⟩ := wls
    simp only [hfind4] at hrr
    injection hrr with hrr
    injection hrr with hw hst4
    subst hst4
    subst hw
    unfold updateAttemptRecord at hua
    cases hfind5 : findOneAndUpdate (fun r => r.id == record.id)
        (fun r => { r with
          response := some (mkAttemptResponse runID stepID d step.rewards w p2),
          rewardApplied := true }) ({ st3 with runs := ls } : GameState).attempts with
    | none => exact absurd (hfind5 ▸ hua) (by simp)
    | some urecs =>
    obtain ⟨urec, recs⟩ := urecs
    simp only [hfind5] at hua
    injection hua with hua
    subst hua
    refine ⟨?_, ?_, rfl⟩
    · show st3.steps = st.steps
      rw [hs3]
    · show ls.find? (fun r => r.id == runID) = _
      have hpred : (fun r : Run => r.id == (advanceRun run stepID record.id now cnt).id) =
          (fun r : Run => r.id == runID) := by
        funext x
        rw [advanceRun_id, hid]
      rw [hpred] at hfind4
      have := find?_after_findOneAndUpdate_self hfind4 ?_
      · rw [this]
        rw [findOneAndUpdate_some_of_const hfind4]
      · intro x hx
        simp [advanceRun_id, hid]

/-- Inversion of a fresh (non-replay) successful attempt: the run existed,
was owned and active, and the post state carries exactly the advanced run,
with the step collection untouched. -/
theorem attempt_fresh_success {hav : ℚ → ℚ → ℚ → ℚ → ℚ} {now : Nat} {newID : String}
    {st st' : GameState} {playerID runID stepID : String} {req : AttemptRequest}
    {r : AttemptResponse}
    (h : Attempt hav now newID st playerID runID stepID req = (.ok r, st'))
    (hflag : r.idempotency = false) :
    ∃ run, getRunByID st runID = some run ∧ run.playerId = playerID ∧
      run.state = .active ∧
      st'.steps = st.steps ∧
      getRunByID st' runID = some (advanceRun run stepID newID now
        (listStepsByDungeon st run.dungeonId).length) := by
  unfold Attempt at h
  split at h
  · exact absurd h (by simp)
  split at h
  · exact absurd h (by simp)
  rename_i run hrun
  split at h
  · exact absurd h (by simp)
  rename_i hown
  split at h
  · exact absurd h (by simp)
  rename_i hact
  split at h
  · exact absurd h (by simp)
  rename_i step hstep
  split at h
  · exact absurd h (by simp)
  split at h
  · exact absurd h (by simp)
  split at h
  · -- replay branch: the returned flag would be true
    rename_i existing hrec
    injection h with h1 h2
    have ht := attemptReplayCheck_ok_idempotency h1
    rw [hflag] at ht
    exact absurd ht (by simp)
  · rename_i hrec
    split at h
    · -- fresh transaction succeeded
      rename_i resp0 st5 htx
      injection h with h1 h2
      injection h1 with h1
      subst h1
      subst h2
      have hfound := hrun
      unfold getRunByID at hfound
      have hid : run.id = runID := by simpa using List.find?_some hfound
      have hm := attemptTx_ok_run hid htx
      refine ⟨run, hrun, ?_, ?_, hm.1, hm.2.1⟩
      · exact not_ne_iff.mp hown
      · exact not_ne_iff.mp hact
    · rename_i e htx
      split at h
      · rw [hrec] at h
        exact absurd h (by simp)
      · exact absurd h (by simp)

theorem runAttempts_append (hav : ℚ → ℚ → ℚ → ℚ → ℚ) (now : Nat)
    (playerID runID : String) :
    ∀ (l1 l2 : List AttemptCall) (st : GameState),
      runAttempts hav now playerID runID (l1 ++ l2) st =
        runAttempts hav now playerID runID l2 (runAttempts hav now playerID runID l1 st) := by
  intro l1
  induction l1 with
  | nil => intro l2 st; rfl
  | cons c rest ih =>
    intro l2 st
    obtain ⟨stepID, newID, req⟩ := c
    simp only [List.cons_append, runAttempts]
    exact ih l2 _

theorem attemptsAllFresh_append (hav : ℚ → ℚ → ℚ → ℚ → ℚ) (now : Nat)
    (playerID runID : String) :
    ∀ (l1 l2 : List AttemptCall) (st : GameState),
      attemptsAllFresh hav now playerID runID (l1 ++ l2) st =
        (attemptsAllFresh hav now playerID runID l1 st &&
          attemptsAllFresh hav now playerID runID l2 (runAttempts hav now playerID runID l1 st)) := by
  intro l1
  induction l1 with
  | nil => intro l2 st; simp [attemptsAllFresh, runAttempts]
  | cons c rest ih =>
    intro l2 st
    obtain ⟨stepID, newID, req⟩ := c
    simp only [List.cons_append, attemptsAllFresh, runAttempts]
    split
    · rename_i r st1 hA
      simp only [List.append_eq, ih l2 st1, hA, Bool.and_assoc]
    · simp

/-- The accumulated effect of a sequence of fresh successful attempts on
one run: the run is found afterwards with its current step and killed-step
count advanced by the number of calls, the step collection untouched, and
the completion transition taken exactly when the final current step
exceeds the dungeon's step count. -/
theorem runAttempts_props (hav : ℚ → ℚ → ℚ → ℚ → ℚ) (now : Nat)
    (playerID runID : String) :
    ∀ (calls : List AttemptCall) (st : GameState) (run : Run),
      getRunByID st runID = some run →
      attemptsAllFresh hav now playerID runID calls st = true →
      ∃ run', getRunByID (runAttempts hav now playerID runID calls st) runID = some run' ∧
        run'.dungeonId = run.dungeonId ∧
        (runAttempts hav now playerID runID calls st).steps = st.steps ∧
        run'.currentStep = run.currentStep + calls.length ∧
        run'.killedSteps.length = run.killedSteps.length + calls.length ∧
        (calls = [] → run' = run) ∧
        run'.state = (if calls = [] then run.state else
          (if run'.currentStep > ((listStepsByDungeon st run.dungeonId).length : Int)
            then RunState.completed else RunState.active)) ∧
        run'.endedAt = (if calls = [] ∨
            run'.currentStep ≤ ((listStepsByDungeon st run.dungeonId).length : Int)
          then run.endedAt else some now) := by
  intro calls
  induction calls with
  | nil =>
    intro st run hrun hall
    exact ⟨run, hrun, rfl, rfl, by simp, by simp, fun _ => rfl, by simp, by simp⟩
  | cons c rest ih =>
    intro st run hrun hall
    obtain ⟨stepID, newID, req⟩ := c
    simp only [attemptsAllFresh] at hall
    split at hall
    · rename_i r st1 hA
      have hfl : (!r.idempotency) = true ∧
          attemptsAllFresh hav now playerID runID rest st1 = true := by
        simpa using hall
      have hidem : r.idempotency = false := by simpa using hfl.1
      obtain ⟨run0, hrun0, hown0, hact0, hsteps1, hrun1⟩ := attempt_fresh_success hA hidem
      rw [hrun] at hrun0
      injection hrun0 with he
      subst he
      have hcnt : listStepsByDungeon st1
          (advanceRun run stepID newID now
            (listStepsByDungeon st run.dungeonId).length).dungeonId =
          listStepsByDungeon st run.dungeonId := by
        unfold listStepsByDungeon
        rw [hsteps1, advanceRun_dungeonId]
      obtain ⟨run', hfind', hdug', hsteps', hcur', hkill', hnil', hstate', hended'⟩ :=
        ih st1 (advanceRun run stepID newID now
          (listStepsByDungeon st run.dungeonId).length) hrun1 hfl.2
      rw [hcnt] at hstate' hended'
      have hstep_eq : runAttempts hav now playerID runID
          ((stepID, newID, req) :: rest) st = runAttempts hav now playerID runID rest st1 := by
        simp only [runAttempts, hA]
      refine ⟨run', ?_, ?_, ?_, ?_, ?_, ?_, ?_, ?_⟩
      · rw [hstep_eq]; exact hfind'
      · rw [hdug', advanceRun_dungeonId]
      · rw [hstep_eq, hsteps', hsteps1]
      · rw [hcur', advanceRun_currentStep, List.length_cons]
        push_cast
        ring
      · rw [hkill', advanceRun_killedSteps, List.length_cons, List.length_append]
        simp
        omega
      · intro hc; cases hc
      · rw [if_neg (by simp)]
        rcases List.eq_nil_or_concat rest with hre | hx
        · subst hre
          have hre' := hnil' rfl
          subst hre'
          rw [advanceRun_state, advanceRun_currentStep, hact0]
        · have hrne : rest ≠ [] := by
            obtain ⟨l, a, hla⟩ := hx
            subst hla
            simp
          rw [hstate', if_neg hrne]
      · rcases List.eq_nil_or_concat rest with hre | hx
        · subst hre
          have hre' := hnil' rfl
          subst hre'
          by_cases hle : (advanceRun run stepID newID now
              (listStepsByDungeon st run.dungeonId).length).currentStep ≤
              ((listStepsByDungeon st run.dungeonId).length : Int)
          · rw [if_pos (Or.inr hle)]
            rw [advanceRun_currentStep] at hle
            rw [advanceRun_endedAt, if_neg (by omega)]
          · rw [if_neg (not_or.mpr ⟨by simp, hle⟩)]
            rw [advanceRun_currentStep] at hle
            rw [advanceRun_endedAt, if_pos (by omega)]
        · have hrne : rest ≠ [] := by
            obtain ⟨l, a, hla⟩ := hx
            subst hla
            simp
          by_cases hle : run'.currentStep ≤
              ((listStepsByDungeon st run.dungeonId).length : Int)
          · rw [if_pos (Or.inr hle), hended', if_pos (Or.inr hle),
              advanceRun_endedAt, if_neg ?_]
            rw [hcur', advanceRun_currentStep] at hle
            omega
          · rw [if_neg (not_or.mpr ⟨by simp, hle⟩), hended',
              if_neg (not_or.mpr ⟨hrne, hle⟩)]
    · exact absurd hall (by simp)

/-- C8.  For a fresh run (`currentStep = 1`, no killed steps) on a dungeon
with `n ≥ 1` steps, after a sequence of `n` attempt calls that all settle
freshly (each returns success with the replay flag false — which forces the
steps to be attempted in order), the run is `completed`, its current step
equals `n + 1`, its end timestamp is stamped with the settlement clock, and
it carries `n` killed-step entries; moreover each successful settlement in
the sequence advanced the current step by exactly one and appended exactly
one killed-step entry. -/
theorem attempt_full_run_completion
    (hav : ℚ → ℚ → ℚ → ℚ → ℚ) (now : Nat) (playerID runID : String)
    (st : GameState) (run : Run) (calls : List AttemptCall)
    (hrun : getRunByID st runID = some run)
    (hfresh : run.currentStep = 1)
    (hkilled : run.killedSteps = [])
    (hn : calls.length = (listStepsByDungeon st run.dungeonId).length)
    (hpos : calls ≠ [])
    (hall : attemptsAllFresh hav now playerID runID calls st = true) :
    ∃ run', getRunByID (runAttempts hav now playerID runID calls st) runID = some run' ∧
      run'.state = .completed ∧
      run'.currentStep = (calls.length : Int) + 1 ∧
      run'.endedAt = some now ∧
      run'.killedSteps.length = calls.length ∧
      (∀ k, k < calls.length → ∃ r1 r2,
        getRunByID (runAttempts hav now playerID runID (calls.take k) st) runID = some r1 ∧
        getRunByID (runAttempts hav now playerID runID (calls.take (k + 1)) st) runID
          = some r2 ∧
        r2.currentStep = r1.currentStep + 1 ∧
        r2.killedSteps.length = r1.killedSteps.length + 1) := by
  obtain ⟨run', hfind, hdug, hsteps, hcur, hkill, hnil, hstate, hended⟩ :=
    runAttempts_props hav now playerID runID calls st run hrun hall
  have hgt : run'.currentStep > ((listStepsByDungeon st run.dungeonId).length : Int) := by
    rw [hcur, hfresh, ← hn]
    omega
  refine ⟨run', hfind, ?_, ?_, ?_, ?_, ?_⟩
  · rw [hstate, if_neg hpos, if_pos hgt]
  · rw [hcur, hfresh]
    ring
  · rw [hended, if_neg (not_or.mpr ⟨hpos, by omega⟩)]
  · rw [hkill, hkilled]
    simp
  · intro k hk
    have hallk : attemptsAllFresh hav now playerID runID
        (calls.take k ++ calls.drop k) st = true := by
      rw [List.take_append_drop]
      exact hall
    rw [attemptsAllFresh_append] at hallk
    have h1 : attemptsAllFresh hav now playerID runID (calls.take k) st = true ∧
        attemptsAllFresh hav now playerID runID (calls.drop k)
          (runAttempts hav now playerID runID (calls.take k) st) = true := by
      simpa using hallk
    obtain ⟨r1, hfind1, _, _, _, _, _, _, _⟩ :=
      runAttempts_props hav now playerID runID (calls.take k) st run hrun h1.1
    cases hdk : calls.drop k with
    | nil =>
      have := List.drop_eq_nil_iff.mp hdk
      omega
    | cons c rest1 =>
      obtain ⟨stepID, newID, req⟩ := c
      have h2 := h1.2
      rw [hdk] at h2
      simp only [attemptsAllFresh] at h2
      split at h2
      · rename_i r st1 hA
        have hfl : (!r.idempotency) = true ∧
            attemptsAllFresh hav now playerID runID rest1 st1 = true := by
          simpa using h2
        have hidem : r.idempotency = false := by simpa using hfl.1
        obtain ⟨run0, hrun0, _, _, _, hrunAfter⟩ := attempt_fresh_success hA hidem
        rw [hfind1] at hrun0
        injection hrun0 with he
        subst he
        have htake : calls.take (k + 1) =
            calls.take k ++ [(stepID, newID, req)] := by
          rw [List.take_add, hdk]
          rfl
        have hrunAt : runAttempts hav now playerID runID (calls.take (k + 1)) st = st1 := by
          rw [htake, runAttempts_append]
          simp only [runAttempts, hA]
        refine ⟨r1, advanceRun r1 stepID newID now
          (listStepsByDungeon (runAttempts hav now playerID runID (calls.take k) st)
            r1.dungeonId).length, hfind1, ?_, ?_, ?_⟩
        · rw [hrunAt]
          exact hrunAfter
        · rw [advanceRun_currentStep]
        · rw [advanceRun_killedSteps, List.length_append]
          rfl
      · exact absurd h2 (by simp)

/-- Witness for C8: on the fresh two-step fixture the two in-order calls
settle freshly, and afterwards the run is completed with current step
3 (= 2 + 1) and end time stamped. -/
theorem attempt_full_run_completion_witness :
    getRunByID wState "run-1" = some wRun ∧
    wCalls.length = (listStepsByDungeon wState wRun.dungeonId).length ∧
    attemptsAllFresh hav0 10 "p-1" "run-1" wCalls wState = true ∧
    (getRunByID (runAttempts hav0 10 "p-1" "run-1" wCalls wState) "run-1").map
      Run.state = some RunState.completed ∧
    (getRunByID (runAttempts hav0 10 "p-1" "run-1" wCalls wState) "run-1").map
      Run.currentStep = some 3 ∧
    (getRunByID (runAttempts hav0 10 "p-1" "run-1" wCalls wState) "run-1").map
      Run.endedAt = some (some 10) := by
  obtain ⟨run', hf, hs, hc, he, hk, _⟩ := attempt_full_run_completion hav0 10 "p-1"
    "run-1" wState wRun wCalls (by decide) (by decide) (by decide) (by decide)
    (by decide) (by decide)
  refine ⟨by decide, by decide, by decide, ?_, ?_, ?_⟩
  · simp [hf, hs]
  · simp [hf, hc]
    rfl
  · simp [hf, he]

section

open Real

theorem sin_half_sq (x : ℝ) : sin (x / 2) ^ 2 = (1 - cos x) / 2 := by
  have h1 := sin_sq_add_cos_sq (x / 2)
  have h2 := cos_two_mul (x / 2)
  have h3 : (2 : ℝ) * (x / 2) = x := by ring
  rw [h3] at h2
  nlinarith

theorem toRadians_sub (x y : ℝ) : toRadians (x - y) = toRadians x - toRadians y := by
  unfold toRadians
  ring

/-- The dot product of the two surface unit vectors lies in `[-1, 1]` for
valid latitudes (where the cosines are nonnegative). -/
theorem dot_bounds (p q l : ℝ) (h1 : 0 ≤ cos p) (h2 : 0 ≤ cos q) :
    -1 ≤ sin p * sin q + cos p * cos q * cos l ∧
    sin p * sin q + cos p * cos q * cos l ≤ 1 := by
  have hpq : (0 : ℝ) ≤ cos p * cos q := mul_nonneg h1 h2
  have hu : cos p * cos q * cos l ≤ cos p * cos q := by
    have := mul_le_mul_of_nonneg_left (cos_le_one l) hpq
    simpa using this
  have hl : -(cos p * cos q) ≤ cos p * cos q * cos l := by
    have := mul_le_mul_of_nonneg_left (neg_one_le_cos l) hpq
    nlinarith
  constructor
  · have hc := cos_add p q
    have hb := cos_le_one (p + q)
    nlinarith
  · have hc := cos_sub p q
    have hb := cos_le_one (p - q)
    nlinarith

/-- The haversine quantity `a` equals `(1 - dot) / 2`. -/
theorem hav_a_eq (p q l : ℝ) :
    sin ((q - p) / 2) * sin ((q - p) / 2) + cos p * cos q * (sin (l / 2) * sin (l / 2)) =
      (1 - (sin p * sin q + cos p * cos q * cos l)) / 2 := by
  have hA := sin_half_sq (q - p)
  have hB := sin_half_sq l
  have hC := cos_sub q p
  rw [show sin ((q - p) / 2) * sin ((q - p) / 2) = sin ((q - p) / 2) ^ 2 from by ring,
    show sin (l / 2) * sin (l / 2) = sin (l / 2) ^ 2 from by ring, hA, hB, hC]
  ring

/-- On `[0, 1]` the `atan2` form computed by the source equals the arcsin
form of the haversine formula. -/
theorem atan2_sqrt_eq_arcsin {a : ℝ} (h0 : 0 ≤ a) (h1 : a ≤ 1) :
    atan2 (sqrt a) (sqrt (1 - a)) = arcsin (sqrt a) := by
  rcases eq_or_lt_of_le h1 with ha1 | ha1
  · subst ha1
    unfold atan2
    norm_num [arcsin_one]
  · have hx : 0 < sqrt (1 - a) := sqrt_pos.mpr (by linarith)
    unfold atan2
    rw [if_pos hx]
    rw [arcsin_eq_arctan ⟨by nlinarith [sqrt_nonneg a], by
      have := sqrt_lt_sqrt h0 ha1
      simpa using this⟩]
    rw [sq_sqrt h0]

/-- Doubling the arcsin form gives the central angle: `2 arcsin (sqrt a)`
is the arccos of the dot product when `d = 1 - 2a`. -/
theorem two_arcsin_sqrt_eq_arccos {a d : ℝ} (h0 : 0 ≤ a) (had : d = 1 - 2 * a) :
    2 * arcsin (sqrt a) = arccos d := by
  have hpy := sin_sq_add_cos_sq (arcsin (sqrt a))
  have h2m := cos_two_mul (arcsin (sqrt a))
  by_cases hA : a ≤ 1
  · have hsin : sin (arcsin (sqrt a)) = sqrt a := by
      apply sin_arcsin
      · nlinarith [sqrt_nonneg a]
      · have := sqrt_le_sqrt hA
        simpa using this
    have hsq : sin (arcsin (sqrt a)) ^ 2 = a := by
      rw [hsin, sq_sqrt h0]
    have hcos2 : cos (2 * arcsin (sqrt a)) = d := by
      rw [h2m, had]
      nlinarith
    rw [← hcos2]
    have hnn : 0 ≤ 2 * arcsin (sqrt a) := by
      have := arcsin_nonneg.mpr (sqrt_nonneg a)
      linarith
    have hple : 2 * arcsin (sqrt a) ≤ π := by
      have := arcsin_le_pi_div_two (sqrt a)
      linarith
    rw [arccos_cos hnn hple]
  · -- a > 1: sqrt a ≥ 1, arcsin saturates at π/2 and d < -1, arccos saturates at π
    push_neg at hA
    have hs1 : 1 ≤ sqrt a := by
      have := sqrt_le_sqrt hA.le
      simpa using this
    have harc : arcsin (sqrt a) = π / 2 := arcsin_of_one_le hs1
    have hd1 : d < -1 := by
      rw [had]
      linarith
    have harcc : arccos d = π := arccos_of_le_neg_one hd1.le
    rw [harc, harcc]
    ring

/-- C9.  For every pair of coordinates with valid latitudes (|lat| at most
90 degrees), the geofence evaluator `geo.HaversineMeters` — a pure function
of its four arguments — returns the great-circle surface distance in meters
on the sphere of radius 6371000 m, and coincides with the canonical
haversine formula; verified over the reals, the idealization of the Go
`float64` arithmetic. -/
theorem haversineMeters_eq_great_circle_distance (lat1 lon1 lat2 lon2 : ℝ)
    (h1 : |lat1| ≤ 90) (h2 : |lat2| ≤ 90) :
    HaversineMeters lat1 lon1 lat2 lon2 = haversineFormulaSpec lat1 lon1 lat2 lon2 ∧
    HaversineMeters lat1 lon1 lat2 lon2 = greatCircleDistanceSpec lat1 lon1 lat2 lon2 := by
  have hb1 : |toRadians lat1| ≤ π / 2 := by
    unfold toRadians
    rw [abs_mul, abs_of_pos (show (0:ℝ) < π / 180 by positivity)]
    calc |lat1| * (π / 180) ≤ 90 * (π / 180) :=
          mul_le_mul_of_nonneg_right h1 (by positivity)
      _ = π / 2 := by ring
  have hb2 : |toRadians lat2| ≤ π / 2 := by
    unfold toRadians
    rw [abs_mul, abs_of_pos (show (0:ℝ) < π / 180 by positivity)]
    calc |lat2| * (π / 180) ≤ 90 * (π / 180) :=
          mul_le_mul_of_nonneg_right h2 (by positivity)
      _ = π / 2 := by ring
  have hc1 : 0 ≤ cos (toRadians lat1) :=
    cos_nonneg_of_mem_Icc ⟨(abs_le.mp hb1).1, (abs_le.mp hb1).2⟩
  have hc2 : 0 ≤ cos (toRadians lat2) :=
    cos_nonneg_of_mem_Icc ⟨(abs_le.mp hb2).1, (abs_le.mp hb2).2⟩
  have hdlat : toRadians (lat2 - lat1) = toRadians lat2 - toRadians lat1 :=
    toRadians_sub lat2 lat1
  have hdlon : toRadians (lon2 - lon1) = toRadians lon2 - toRadians lon1 :=
    toRadians_sub lon2 lon1
  have ha_eq : sin (toRadians (lat2 - lat1) / 2) * sin (toRadians (lat2 - lat1) / 2) +
      cos (toRadians lat1) * cos (toRadians lat2) *
        (sin (toRadians (lon2 - lon1) / 2) * sin (toRadians (lon2 - lon1) / 2)) =
      (1 - (sin (toRadians lat1) * sin (toRadians lat2) +
        cos (toRadians lat1) * cos (toRadians lat2) *
          cos (toRadians lon2 - toRadians lon1))) / 2 := by
    rw [hdlat, hdlon]
    exact hav_a_eq (toRadians lat1) (toRadians lat2) (toRadians lon2 - toRadians lon1)
  obtain ⟨hdg, hdl⟩ := dot_bounds (toRadians lat1) (toRadians lat2)
    (toRadians lon2 - toRadians lon1) hc1 hc2
  have h0a : 0 ≤ sin (toRadians (lat2 - lat1) / 2) * sin (toRadians (lat2 - lat1) / 2) +
      cos (toRadians lat1) * cos (toRadians lat2) *
        (sin (toRadians (lon2 - lon1) / 2) * sin (toRadians (lon2 - lon1) / 2)) := by
    have := mul_self_nonneg (sin (toRadians (lat2 - lat1) / 2))
    have := mul_nonneg (mul_nonneg hc1 hc2)
      (mul_self_nonneg (sin (toRadians (lon2 - lon1) / 2)))
    linarith
  have h1a : sin (toRadians (lat2 - lat1) / 2) * sin (toRadians (lat2 - lat1) / 2) +
      cos (toRadians lat1) * cos (toRadians lat2) *
        (sin (toRadians (lon2 - lon1) / 2) * sin (toRadians (lon2 - lon1) / 2)) ≤ 1 := by
    rw [ha_eq]
    linarith
  constructor
  · simp only [HaversineMeters, haversineFormulaSpec]
    rw [atan2_sqrt_eq_arcsin h0a h1a]
    rw [show sin (toRadians (lat2 - lat1) / 2) * sin (toRadians (lat2 - lat1) / 2) +
        cos (toRadians lat1) * cos (toRadians lat2) *
          (sin (toRadians (lon2 - lon1) / 2) * sin (toRadians (lon2 - lon1) / 2)) =
        sin (toRadians (lat2 - lat1) / 2) ^ 2 + cos (toRadians lat1) * cos (toRadians lat2) *
          sin (toRadians (lon2 - lon1) / 2) ^ 2 from by ring]
    ring
  · simp only [HaversineMeters, greatCircleDistanceSpec]
    rw [atan2_sqrt_eq_arcsin h0a h1a]
    rw [show earthRadiusMeters * (2 * arcsin (sqrt (sin (toRadians (lat2 - lat1) / 2) *
        sin (toRadians (lat2 - lat1) / 2) + cos (toRadians lat1) * cos (toRadians lat2) *
          (sin (toRadians (lon2 - lon1) / 2) * sin (toRadians (lon2 - lon1) / 2))))) =
        earthRadiusMeters * (2 * arcsin (sqrt (sin (toRadians (lat2 - lat1) / 2) *
        sin (toRadians (lat2 - lat1) / 2) + cos (toRadians lat1) * cos (toRadians lat2) *
          (sin (toRadians (lon2 - lon1) / 2) * sin (toRadians (lon2 - lon1) / 2))))) from rfl]
    congr 1
    apply two_arcsin_sqrt_eq_arccos h0a
    rw [ha_eq]
    ring

/-- Witness for C9: the theorem applied at the concrete coordinates of the
Eiffel Tower and the Louvre (valid latitudes). -/
theorem haversineMeters_witness :
    |(48.85837 : ℝ)| ≤ 90 ∧ |(48.860611 : ℝ)| ≤ 90 ∧
    HaversineMeters 48.85837 2.294481 48.860611 2.337644 =
      greatCircleDistanceSpec 48.85837 2.294481 48.860611 2.337644 := by
  refine ⟨abs_le.mpr ⟨by norm_num, by norm_num⟩, abs_le.mpr ⟨by norm_num, by norm_num⟩, ?_⟩
  exact (haversineMeters_eq_great_circle_distance 48.85837 2.294481 48.860611 2.337644
    (abs_le.mpr ⟨by norm_num, by norm_num⟩) (abs_le.mpr ⟨by norm_num, by norm_num⟩)).2

end

end Dungeons
